import Mathlib

set_option maxRecDepth 100000

/-!
# MASLDatlas interface enhancement layer (`www/custom.js`)

A shallow embedding of the event-driven script: the page state the script
reads and writes, its handlers as state transformers, and the pending timed
callbacks (`setTimeout` and jQuery effect completions) as an explicit queue.
The HTML parser behind `$(markup)` is not part of the script: the handlers take
it as a parameter (`Browser`), and a tag scanner stands in for it where a run
is evaluated.
-/

namespace MASLD

/-! ## Values and DOM fragments -/

/-- The value `$(sel).val()` yields for a single-choice selector: `none` is
`null` (nothing selected), `some s` the selected option's value. -/
abbrev SelVal := Option String

/-- JavaScript truthiness of a selector value, as tested by
`organism && dataset`. -/
def truthy : SelVal → Bool
  | none => false
  | some s => s != ""

/-- The JavaScript operator `a && b` on selector values: `a` when `a` is falsy,
`b` otherwise. -/
def jsAnd (a b : SelVal) : SelVal :=
  if truthy a then b else a

/-! ## Overlay markup and the HTML parser -/

/-- The template literal of lines 18-25 up to the spliced message. -/
def overlayMarkupHead : String :=
  "\n            <div class=\"loading-overlay\" id=\"globalLoading\">\n                <div class=\"text-center\">\n                    <div class=\"loading-spinner\"></div>\n                    <h4 class=\"mt-3 text-primary\">"

/-- The template literal of lines 18-25 after the spliced message. -/
def overlayMarkupTail : String :=
  "</h4>\n                </div>\n            </div>\n        "

/-- The template literal of lines 18-25: the message is spliced in as it is. -/
def overlayMarkup (message : String) : String :=
  overlayMarkupHead ++ message ++ overlayMarkupTail

/-- Whether a message is free of markup: it holds no `<`. -/
def plainText (message : String) : Bool :=
  !message.data.contains '<'

/-- Tokenizer states of the tag scanner. -/
inductive Scan where
  | data
  | tagOpen
  | endTagOpen
  | skip
  | tagName
  | beforeAttr
  | attrName (name : List Char)
  | afterAttrName (name : List Char)
  | beforeValue (name : List Char)
  | quoted (name : List Char) (quote : Char) (value : List Char)
  | unquoted (name : List Char) (value : List Char)
deriving DecidableEq, Repr

/-- The tag scanner while it reads markup. -/
structure Scanner where
  state : Scan
  /-- The tag being read is an end tag. -/
  closing : Bool
  /-- The tag being read already carries a class attribute. -/
  seenClass : Bool
  /-- The class attribute of the tag being read names `loading-overlay`. -/
  hit : Bool
  /-- Start tags read so far whose class names `loading-overlay`. -/
  count : Nat
deriving DecidableEq, Repr

/-- HTML white space: space, tab, line feed, form feed, carriage return. -/
def isSpace (c : Char) : Bool :=
  c.toNat == 32 || c.toNat == 9 || c.toNat == 10 || c.toNat == 12 || c.toNat == 13

/-- The white-space separated tokens of an attribute value. -/
def classTokens (value : List Char) : List (List Char) :=
  value.foldr
    (fun c acc =>
      if isSpace c then [] :: acc
      else match acc with
        | [] => [[c]]
        | t :: ts => (c :: t) :: ts)
    [[]]

/-- An attribute of the tag being read is complete: the first class attribute
decides whether the tag names `loading-overlay`. -/
def finishAttr (name value : List Char) (sc : Scanner) : Scanner :=
  if name = "class".data && !sc.seenClass then
    { sc with seenClass := true, hit := (classTokens value).contains "loading-overlay".data }
  else sc

/-- The tag being read ends at `>`: a start tag naming `loading-overlay` is
counted. -/
def emitTag (sc : Scanner) : Scanner :=
  { state := .data, closing := false, seenClass := false, hit := false,
    count := if !sc.closing && sc.hit then sc.count + 1 else sc.count }

/-- One character of markup. -/
def scanChar (sc : Scanner) (c : Char) : Scanner :=
  match sc.state with
  | .data => if c = '<' then { sc with state := .tagOpen } else sc
  | .tagOpen =>
    if c.isAlpha then
      { sc with state := .tagName, closing := false, seenClass := false, hit := false }
    else if c = '/' then { sc with state := .endTagOpen }
    else if c = '!' || c = '?' then { sc with state := .skip }
    else if c = '<' then sc
    else { sc with state := .data }
  | .endTagOpen =>
    if c.isAlpha then
      { sc with state := .tagName, closing := true, seenClass := false, hit := false }
    else if c = '>' then { sc with state := .data }
    else { sc with state := .skip }
  | .skip => if c = '>' then { sc with state := .data } else sc
  | .tagName =>
    if isSpace c || c = '/' then { sc with state := .beforeAttr }
    else if c = '>' then emitTag sc
    else sc
  | .beforeAttr =>
    if isSpace c || c = '/' then sc
    else if c = '>' then emitTag sc
    else { sc with state := .attrName [c.toLower] }
  | .attrName name =>
    if isSpace c then { sc with state := .afterAttrName name }
    else if c = '/' then { finishAttr name [] sc with state := .beforeAttr }
    else if c = '=' then { sc with state := .beforeValue name }
    else if c = '>' then emitTag (finishAttr name [] sc)
    else { sc with state := .attrName (name ++ [c.toLower]) }
  | .afterAttrName name =>
    if isSpace c then sc
    else if c = '/' then { finishAttr name [] sc with state := .beforeAttr }
    else if c = '=' then { sc with state := .beforeValue name }
    else if c = '>' then emitTag (finishAttr name [] sc)
    else { finishAttr name [] sc with state := .attrName [c.toLower] }
  | .beforeValue name =>
    if isSpace c then sc
    else if c.toNat == 34 || c.toNat == 39 then { sc with state := .quoted name c [] }
    else if c = '>' then emitTag (finishAttr name [] sc)
    else { sc with state := .unquoted name [c] }
  | .quoted name quote value =>
    if c = quote then { finishAttr name value sc with state := .beforeAttr }
    else { sc with state := .quoted name quote (value ++ [c]) }
  | .unquoted name value =>
    if isSpace c then { finishAttr name value sc with state := .beforeAttr }
    else if c = '>' then emitTag (finishAttr name value sc)
    else { sc with state := .unquoted name (value ++ [c]) }

/-- The scanner before any markup. -/
def Scanner.init : Scanner :=
  { state := .data, closing := false, seenClass := false, hit := false, count := 0 }

/-- The number of start tags of the markup whose class attribute names
`loading-overlay`. The scanner follows the HTML tokenizer through text, start
tags, end tags and their attributes; comments, character references, raw-text
elements and start tags the tree builder drops are outside it. -/
def countOverlayTags (markup : String) : Nat :=
  (markup.data.foldl scanChar Scanner.init).count

/-- What the script relies on from the page: how many `.loading-overlay`
elements the HTML parser builds from a markup string handed to `$(...)`. The
overlay template always yields its own outer element, and exactly that one
when the spliced message holds no `<`. -/
structure Browser where
  /-- The number of `.loading-overlay` elements built from a markup string. -/
  overlayNodes : String → Nat
  /-- The outer element of the overlay template is always built. -/
  overlayNodes_pos : ∀ message, 1 ≤ overlayNodes (overlayMarkup message)
  /-- A message without `<` adds no element to the template. -/
  overlayNodes_plain : ∀ message, plainText message = true →
    overlayNodes (overlayMarkup message) = 1

/-- A browser whose HTML parser is the tag scanner; the runs evaluated below
use it on markup within the scanner's reach. -/
def tagScanner : Browser where
  overlayNodes := countOverlayTags
  overlayNodes_pos := by
    intro message
    have hmono : ∀ (sc : Scanner) (c : Char), sc.count ≤ (scanChar sc c).count := by
      intro sc c
      unfold scanChar
      split <;> (repeat' split) <;> simp [emitTag, finishAttr] <;> (repeat' split) <;> simp
    have hfold : ∀ (l : List Char) (sc : Scanner), sc.count ≤ (l.foldl scanChar sc).count := by
      intro l
      induction l with
      | nil => intro sc; exact le_rfl
      | cons c cs ih => intro sc; exact le_trans (hmono sc c) (ih _)
    have hhead : overlayMarkupHead.data.foldl scanChar Scanner.init =
        ⟨.data, false, false, false, 1⟩ := by decide
    simp only [countOverlayTags, overlayMarkup, String.data_append, List.foldl_append, hhead]
    exact le_trans (hfold message.data ⟨.data, false, false, false, 1⟩)
      (hfold overlayMarkupTail.data _)
  overlayNodes_plain := by
    intro message hplain
    have hdata : ∀ (l : List Char) (n : Nat), l.contains '<' = false →
        l.foldl scanChar ⟨.data, false, false, false, n⟩ = ⟨.data, false, false, false, n⟩ := by
      intro l n
      induction l with
      | nil => intro _; rfl
      | cons c cs ih =>
        intro h
        simp only [List.contains_cons, Bool.or_eq_false_iff] at h
        have hc : c ≠ '<' := by
          intro hc
          rw [hc] at h
          simp at h
        simp only [List.foldl_cons, scanChar, hc, if_false]
        exact ih h.2
    have hhead : overlayMarkupHead.data.foldl scanChar Scanner.init =
        ⟨.data, false, false, false, 1⟩ := by decide
    have hm : message.data.contains '<' = false := by
      simpa [plainText] using hplain
    simp only [countOverlayTags, overlayMarkup, String.data_append, List.foldl_append, hhead,
      hdata message.data 1 hm]
    decide

/-! ## Page state -/

/-- The jQuery object held in `loadingOverlay`: its identity, the message
spliced into its markup, and the time at which the effects already queued on
its elements (`fadeIn(200)`, earlier `fadeOut(200, ...)`) end. -/
structure Overlay where
  id : Nat
  message : String
  fxIdleAt : Nat
deriving DecidableEq, Repr

/-- Closures handed to `setTimeout` or to `fadeOut` in the script. -/
inductive Callback where
  /-- Lines 33-36: `function() { $(this).remove(); loadingOverlay = null; }`. -/
  | fadeOutDone (node : Nat)
  /-- Lines 102-106: the settle-delay closure of the import watcher. -/
  | importDone (observer : Nat)
  /-- Lines 118-121: the safety closure of the import click handler. -/
  | safety (observer : Nat)
deriving DecidableEq, Repr

/-- A pending timed callback. -/
structure Timer where
  due : Nat
  cb : Callback
deriving DecidableEq, Repr

/-- A banner appended by `showNotification`. `origin` is a ghost field: the
watcher of the import whose completion closure raised the banner, `none` for
any other caller. -/
structure Notification where
  message : String
  type : String
  duration : Nat
  origin : Option Nat
deriving DecidableEq, Repr

/-- The `type` of a mutation record. -/
inductive MutationType where
  | childList
  | attributes
  | characterData
deriving DecidableEq, Repr

/-- The state the overlay manager and the import flow act on. -/
structure Page where
  /-- Current time in ms. -/
  now : Nat
  /-- Supply of fresh identities for created nodes and observers. -/
  nextId : Nat
  /-- The variable `let loadingOverlay = null` of line 13. -/
  loadingOverlay : Option Overlay
  /-- The `.loading-overlay` nodes in the page, each given by the identity of
  the jQuery object that built it. -/
  body : List Nat
  /-- The connected import watchers. -/
  observers : List Nat
  /-- Pending timed callbacks, in creation order. -/
  timers : List Timer
  /-- The banners appended so far. -/
  notifications : List Notification
deriving DecidableEq, Repr

/-- The page right after the script has been set up. -/
def Page.init : Page :=
  { now := 0, nextId := 0, loadingOverlay := none, body := [], observers := [],
    timers := [], notifications := [] }

/-! ## Loading overlay manager (lines 13-38) -/

/-- Register `cb` to run `delay` ms from now. -/
def setTimeout (cb : Callback) (delay : Nat) (s : Page) : Page :=
  { s with timers := s.timers ++ [{ due := s.now + delay, cb := cb }] }

/-- Lines 15-29. The markup of lines 18-25 is handed to `$(...)` with the
message spliced in as it is, and every element built from it is appended to
`body`: the page gains as many `.loading-overlay` nodes as the browser builds
from that markup. -/
def showGlobalLoading (b : Browser) (message : String) (s : Page) : Page :=
  match s.loadingOverlay with
  | some _ => s
  | none =>
    { s with
      loadingOverlay := some { id := s.nextId, message := message, fxIdleAt := s.now + 200 }
      body := s.body ++ List.replicate (b.overlayNodes (overlayMarkup message)) s.nextId
      nextId := s.nextId + 1 }

/-- Lines 31-38. `fadeOut(200, cb)` is queued behind the effects already
queued on the element; `cb` runs when the fade ends. -/
def hideGlobalLoading (s : Page) : Page :=
  match s.loadingOverlay with
  | none => s
  | some o =>
    { s with
      loadingOverlay := some { o with fxIdleAt := max s.now o.fxIdleAt + 200 }
      timers := s.timers ++ [{ due := max s.now o.fxIdleAt + 200, cb := .fadeOutDone o.id }] }

/-- Lines 33-36, run when the fade-out of the jQuery object `node` ends. The
closure runs once for each element of the object, in the same animation tick,
with `this` that element: together the runs remove every node the object
built and clear the reference. Removing an element discards the effects still
queued on it (jQuery drops the element's data, its effect queue included), so
no later completion runs for the same object. -/
def fadeOutComplete (node : Nat) (s : Page) : Page :=
  { s with
    body := s.body.filter (fun n => n != node)
    loadingOverlay := none
    timers := s.timers.filter (fun t => t.cb != .fadeOutDone node) }

/-! ## Notifications (lines 129-171) -/

/-- Lines 129-159: the banner is appended to the page. Its fade-in and its
timed removal bear on none of the properties below and are left out. -/
def showNotification (message : String) (type : String) (duration : Nat)
    (origin : Option Nat) (s : Page) : Page :=
  { s with notifications := s.notifications ++
      [{ message := message, type := type, duration := duration, origin := origin }] }

/-- Lines 161-163. -/
def showSuccessNotification (message : String) (origin : Option Nat) (s : Page) : Page :=
  showNotification message "success" 3000 origin s

/-! ## Dataset import (lines 89-123) -/

/-- The call `observer.disconnect()`. -/
def disconnect (k : Nat) (s : Page) : Page :=
  { s with observers := s.observers.filter (fun j => j != k) }

/-- The template literal of line 94. -/
def importMessage (organism dataset : SelVal) : String :=
  "Chargement du dataset " ++ dataset.getD "" ++ " pour " ++ organism.getD "" ++ "..."

/-- The identity of the watcher created at line 97, after line 94 has run. -/
def importObserver (b : Browser) (organism dataset : SelVal) (s : Page) : Nat :=
  (showGlobalLoading b (importMessage organism dataset) s).nextId

/-- Lines 97-115: a new watcher is created and connected. -/
def observe (s : Page) : Page :=
  { s with observers := s.observers ++ [s.nextId], nextId := s.nextId + 1 }

/-- Lines 89-123: the click handler of `#import_dataset`. -/
def importClick (b : Browser) (organism dataset : SelVal) (s : Page) : Page :=
  if truthy (jsAnd organism dataset) then
    setTimeout (.safety (importObserver b organism dataset s)) 300000
      (observe (showGlobalLoading b (importMessage organism dataset) s))
  else s

/-- Lines 98-109, the body of `mutations.forEach`: `images` is
`$('#imageoutput_UMAP img').length`. -/
def onMutation (k : Nat) (images : Nat) (s : Page) (m : MutationType) : Page :=
  if m = .childList then
    if images > 0 then setTimeout (.importDone k) 1000 s else s
  else s

/-- Lines 97-110: the callback of the import watcher `k` on one batch. -/
def observerCallback (k : Nat) (records : List MutationType) (images : Nat) (s : Page) : Page :=
  records.foldl (onMutation k images) s

/-- A batch of mutation records is handed to every connected import watcher. -/
def deliver (records : List MutationType) (images : Nat) (s : Page) : Page :=
  s.observers.foldl (fun acc k => observerCallback k records images acc) s

/-- Run a timed callback. -/
def runCallback (cb : Callback) (s : Page) : Page :=
  match cb with
  | .fadeOutDone node => fadeOutComplete node s
  | .importDone k =>
    disconnect k (showSuccessNotification "Dataset chargé avec succès!" (some k)
      (hideGlobalLoading s))
  | .safety k => disconnect k (hideGlobalLoading s)

/-! ## The event loop -/

/-- The pending callback to run next (earliest due time, creation order among
equals) and the callbacks that stay pending. -/
def popNext : List Timer → Option (Timer × List Timer)
  | [] => none
  | t :: ts =>
    match popNext ts with
    | none => some (t, [])
    | some (u, rest) => if t.due ≤ u.due then some (t, ts) else some (u, t :: rest)

/-- What can happen to the page. -/
inductive Event where
  /-- A call of `showGlobalLoading`; `none` takes the default message. -/
  | showLoading (message : Option String)
  /-- A call of `hideGlobalLoading`. -/
  | hideLoading
  /-- A click on `#import_dataset` with the selectors holding these values. -/
  | click (organism dataset : SelVal)
  /-- A batch of mutation records, `images` images being under
  `#imageoutput_UMAP` when the watchers run. -/
  | mutations (records : List MutationType) (images : Nat)
  /-- The next pending timed callback runs. -/
  | timer
  /-- Time passes, at most up to the next pending callback. -/
  | wait (ms : Nat)
deriving DecidableEq, Repr

/-- One turn of the event loop. -/
def step (b : Browser) (s : Page) : Event → Page
  | .showLoading message => showGlobalLoading b (message.getD "Chargement...") s
  | .hideLoading => hideGlobalLoading s
  | .click organism dataset => importClick b organism dataset s
  | .mutations records images => deliver records images s
  | .timer =>
    match popNext s.timers with
    | none => s
    | some (t, rest) => runCallback t.cb { s with now := max s.now t.due, timers := rest }
  | .wait ms =>
    match popNext s.timers with
    | none => { s with now := s.now + ms }
    | some (t, _) => { s with now := max s.now (min (s.now + ms) t.due) }

/-- Run a sequence of events. -/
def run (b : Browser) (s : Page) (evs : List Event) : Page :=
  evs.foldl (step b) s

/-- Whether the message an event hands to `showGlobalLoading` is free of
markup; events that show nothing count as such. -/
def Event.plain : Event → Bool
  | .showLoading message => plainText (message.getD "Chargement...")
  | .click organism dataset =>
    !truthy (jsAnd organism dataset) || plainText (importMessage organism dataset)
  | _ => true

/-- A first import: triggered at time 0, its image detected at 5000 ms, its
completion closure run at 6000 ms, the overlay faded out at 6200 ms; then
time passes up to 10000 ms. -/
def firstImport : List Event :=
  [.click (some "Human") (some "GSE1"), .wait 5000, .mutations [.childList] 1, .timer, .timer,
   .wait 3800]

/-- A second import, triggered after the first. -/
def secondClick : Event :=
  .click (some "Mouse") (some "GSE2")

/-- Whether a batch makes the import watcher schedule its completion closure:
an image is present and the batch holds a child-list record. -/
def detects (records : List MutationType) (images : Nat) : Bool :=
  decide (0 < images) && decide (MutationType.childList ∈ records)

/-- No event of the sequence, run from `s`, hands the watcher `k` a batch in
which it finds an image. -/
def quiet (b : Browser) (k : Nat) : Page → List Event → Bool
  | _, [] => true
  | s, e :: es =>
    (match e with
      | .mutations records images => !(decide (k ∈ s.observers) && detects records images)
      | _ => true) && quiet b k (step b s e) es

/-- The overlay invariant: every overlay node in the page was built by the
referenced overlay object, and every pending fade-out completion belongs to
it. -/
def OverlayInv (s : Page) : Prop :=
  (∀ n ∈ s.body, ∃ o, s.loadingOverlay = some o ∧ o.id = n) ∧
  ∀ t ∈ s.timers, ∀ n, t.cb = .fadeOutDone n → ∃ o, s.loadingOverlay = some o ∧ o.id = n

/-- The completion closures a batch makes the watcher `k` schedule at time
`now`: one for each child-list record when an image is present. -/
def completions (k : Nat) (records : List MutationType) (images now : Nat) : List Timer :=
  List.replicate (if 0 < images then records.count .childList else 0)
    ⟨now + 1000, .importDone k⟩

/-- Identities in use lie below the supply of fresh ones. -/
def FreshInv (s : Page) : Prop :=
  (∀ j ∈ s.observers, j < s.nextId) ∧
  (∀ t ∈ s.timers, ∀ j, t.cb = .importDone j ∨ t.cb = .safety j → j < s.nextId) ∧
  (∀ n ∈ s.notifications, ∀ j, n.origin = some j → j < s.nextId)

/-- Time never passes a pending callback. -/
def TimeInv (s : Page) : Prop :=
  ∀ t ∈ s.timers, s.now ≤ t.due

/-- The invariant of an import `k` that has found no image, its safety timer
being due at `due`: it has raised no banner and scheduled no completion, and
either its watcher is connected and its safety timer pending, or the timer has
fired and the watcher is disconnected. -/
def QuietInv (k due : Nat) (s : Page) : Prop :=
  k < s.nextId ∧
  (∀ n ∈ s.notifications, n.origin ≠ some k) ∧
  (∀ t ∈ s.timers, t.cb ≠ .importDone k) ∧
  (∀ t ∈ s.timers, t.cb = .safety k → t.due = due) ∧
  ((k ∈ s.observers ∧ (⟨due, .safety k⟩ : Timer) ∈ s.timers ∧ s.now ≤ due) ∨
    (k ∉ s.observers ∧ due ≤ s.now))

/-! ## Class toggling: responsive layout (lines 284-299) and selection validator
(lines 325-342) -/

/-- A DOM element as far as the script touches it: its class list and its
`disabled` property. -/
structure Element where
  classes : List String
  disabled : Bool
deriving DecidableEq, Repr

/-- jQuery `addClass`: the class is appended unless already present. -/
def addClass (c : String) (e : Element) : Element :=
  if c ∈ e.classes then e else { e with classes := e.classes ++ [c] }

/-- jQuery `removeClass`: every occurrence of the class is dropped. -/
def removeClass (c : String) (e : Element) : Element :=
  { e with classes := e.classes.filter (fun x => x != c) }

/-- The call `$('.cls').f(...)`: `f` is applied to every element of the page
carrying class `cls`. -/
def onClass (cls : String) (f : Element → Element) (page : List Element) : List Element :=
  page.map (fun e => if cls ∈ e.classes then f e else e)

/-- Lines 284-296, `width` being `$(window).width()`. -/
def handleResize (width : Nat) (page : List Element) : List Element :=
  if width < 768 then
    onClass "umap-container" (addClass "mobile-umap")
      (onClass "sidebar" (addClass "mobile-sidebar") page)
  else
    onClass "umap-container" (removeClass "mobile-umap")
      (onClass "sidebar" (removeClass "mobile-sidebar") page)

/-- What `handleResize` does to a single element: first the `.sidebar` call,
then the `.umap-container` call. -/
def resizeElement (width : Nat) (e : Element) : Element :=
  (handleResize width [e]).headD e

/-- Lines 325-339 on the control `#import_dataset`: the control afterwards and
the returned value `isValid`. -/
def validateSelections (organism dataset : SelVal) (btn : Element) : Element × SelVal :=
  (if truthy (jsAnd organism dataset) then
      addClass "btn-primary" (removeClass "btn-secondary"
        { btn with disabled := !truthy (jsAnd organism dataset) })
    else
      addClass "btn-secondary" (removeClass "btn-primary"
        { btn with disabled := !truthy (jsAnd organism dataset) }),
   jsAnd organism dataset)

/-! ## Organism selector (lines 178-194) -/

/-- An `option` element: its label and its `data-status` attribute. -/
structure OptionEl where
  text : String
  dataStatus : Option String
deriving DecidableEq, Repr

/-- Whether `pat` occurs in `text` starting at some position. -/
def includesChars (pat : List Char) : List Char → Bool
  | [] => pat.isPrefixOf []
  | c :: cs => pat.isPrefixOf (c :: cs) || includesChars pat cs

/-- The method `String.prototype.includes`. -/
def includes (text pat : String) : Bool :=
  includesChars pat.data text.data

/-- Lines 180-189, the body of the `each` callback. -/
def enhanceOption (option : OptionEl) : OptionEl :=
  if includes option.text "✅" then { option with dataStatus := some "available" }
  else if includes option.text "⚪" then { option with dataStatus := some "optional" }
  else if includes option.text "⏳" then { option with dataStatus := some "loading" }
  else option

/-- Lines 178-191 on the options of `#selection_organism`. -/
def enhanceOrganismSelector (options : List OptionEl) : List OptionEl :=
  options.map enhanceOption

/-- The status the specification attaches to a label: the one named by the
label's leading glyph, none when the label begins with no status glyph. -/
def leadingGlyphStatus (text : String) : Option String :=
  match text.data.head? with
  | some '✅' => some "available"
  | some '⚪' => some "optional"
  | some '⏳' => some "loading"
  | _ => none

/-- The option the specification describes: the status of the leading glyph is
written, and the attribute is left untouched when there is none. -/
def enhanceOptionSpec (option : OptionEl) : OptionEl :=
  match leadingGlyphStatus option.text with
  | some st => { option with dataStatus := some st }
  | none => option

/-! ## Exported surface (lines 369-376) -/

/-- A property initialiser of the object literal of lines 369-376. -/
inductive PropInit where
  /-- An identifier reference, resolved when the literal is evaluated. -/
  | ident (name : String)
  /-- A function expression: evaluating it builds a closure, its body does
  not run. -/
  | function (params : List String)
deriving DecidableEq, Repr

/-- What a property initialiser evaluates to. -/
inductive Value where
  /-- The function bound to a name of the enclosing scope. -/
  | bound (name : String)
  /-- A closure built from a function expression. -/
  | closure (params : List String)
deriving DecidableEq, Repr

/-- The error a script statement can raise here. -/
inductive JsError where
  | referenceError (name : String)
deriving DecidableEq, Repr

/-- The object literal assigned to `window.MASLDInterface`, lines 369-376. -/
def exportLiteral : List (String × PropInit) :=
  [("showLoading", .ident "showGlobalLoading"),
   ("hideLoading", .ident "hideGlobalLoading"),
   ("showSuccess", .ident "showSuccessNotification"),
   ("showWarning", .ident "showWarningNotification"),
   ("showError", .ident "showErrorNotification"),
   ("showInfo", .function ["message"])]

/-- The names declared directly in the body of the `ready` callback (lines
6-363): they are bound in that function's scope only. -/
def readyScope : List String :=
  ["loadingOverlay", "showGlobalLoading", "hideGlobalLoading", "showNotification",
   "showSuccessNotification", "showWarningNotification", "showErrorNotification",
   "enhanceOrganismSelector", "tableObserver", "enhanceDataTable", "handleResize",
   "validateSelections"]

/-- The names the script declares at its top level: none, its two top-level
statements are a call and an assignment. -/
def scriptScope : List String := []

/-- The names a page with jQuery binds in the global scope, as far as the
script refers to them. -/
def hostGlobals : List String :=
  ["window", "document", "console", "$", "jQuery", "setTimeout", "MutationObserver"]

/-- Evaluate a property initialiser in a scope. -/
def evalInit (scope : List String) : PropInit → Except JsError Value
  | .ident name => if name ∈ scope then .ok (.bound name) else .error (.referenceError name)
  | .function params => .ok (.closure params)

/-- Evaluate an object literal, initialisers in source order. -/
def evalObject (scope : List String) : List (String × PropInit) → Except JsError (List (String × Value))
  | [] => .ok []
  | (key, init) :: rest =>
    match evalInit scope init with
    | .error e => .error e
    | .ok v =>
      match evalObject scope rest with
      | .error e => .error e
      | .ok props => .ok ((key, v) :: props)

/-- The statement of lines 369-376, run at the top level of the script in a
page whose global scope binds `globals`: the value of `window.MASLDInterface`
afterwards (`none` is `undefined`), or the error raised. -/
def assignExports (globals : List String) : Except JsError (Option (List (String × Value))) :=
  match evalObject (globals ++ scriptScope) exportLiteral with
  | .error e => .error e
  | .ok props => .ok (some props)

/-! # Theorems

## The overlay invariant -/

variable {br : Browser}

theorem popNext_mem : ∀ (ts : List Timer) (t : Timer) (rest : List Timer),
    popNext ts = some (t, rest) → t ∈ ts ∧ ∀ x ∈ rest, x ∈ ts
  | [], t, rest, h => by simp [popNext] at h
  | a :: ts, t, rest, h => by
    unfold popNext at h
    cases hp : popNext ts with
    | none =>
      rw [hp] at h
      simp at h
      obtain ⟨rfl, rfl⟩ := h
      simp
    | some p =>
      obtain ⟨u, r⟩ := p
      rw [hp] at h
      have ih := popNext_mem ts u r hp
      simp only at h
      split at h
      · simp at h
        obtain ⟨rfl, rfl⟩ := h
        exact ⟨by simp, fun x hx => List.mem_cons_of_mem _ hx⟩
      · simp at h
        obtain ⟨rfl, rfl⟩ := h
        refine ⟨List.mem_cons_of_mem _ ih.1, ?_⟩
        intro x hx
        rcases List.mem_cons.1 hx with rfl | hx
        · simp
        · exact List.mem_cons_of_mem _ (ih.2 x hx)

theorem overlayInv_show {s : Page} (h : OverlayInv s) (m : String) :
    OverlayInv (showGlobalLoading br m s) := by
  unfold showGlobalLoading
  cases ho : s.loadingOverlay with
  | some o => simpa using h
  | none =>
    obtain ⟨hb, ht⟩ := h
    refine ⟨?_, ?_⟩
    · intro n hn
      simp only [List.mem_append, List.mem_replicate] at hn
      rcases hn with hn | ⟨-, rfl⟩
      · obtain ⟨o, ho2, _⟩ := hb n hn
        rw [ho] at ho2
        cases ho2
      · exact ⟨_, rfl, rfl⟩
    · intro t htm n hn
      obtain ⟨o, ho2, _⟩ := ht t htm n hn
      rw [ho] at ho2
      cases ho2

theorem overlayInv_hide {s : Page} (h : OverlayInv s) : OverlayInv (hideGlobalLoading s) := by
  unfold hideGlobalLoading
  cases ho : s.loadingOverlay with
  | none => simpa using h
  | some o =>
    obtain ⟨hb, ht⟩ := h
    refine ⟨?_, ?_⟩
    · intro n hn
      obtain ⟨o2, ho2, hid⟩ := hb n hn
      rw [ho] at ho2
      cases ho2
      exact ⟨_, rfl, hid⟩
    · intro t htm n hn
      simp only [List.mem_append, List.mem_singleton] at htm
      rcases htm with htm | rfl
      · obtain ⟨o2, ho2, hid⟩ := ht t htm n hn
        rw [ho] at ho2
        cases ho2
        exact ⟨_, rfl, hid⟩
      · simp at hn
        exact ⟨_, rfl, hn⟩

theorem overlayInv_fadeOutComplete {s : Page} (h : OverlayInv s) (n : Nat)
    (hn : ∃ o, s.loadingOverlay = some o ∧ o.id = n) : OverlayInv (fadeOutComplete n s) := by
  obtain ⟨hb, ht⟩ := h
  obtain ⟨o, ho, rfl⟩ := hn
  refine ⟨?_, ?_⟩
  · intro m hm
    simp only [fadeOutComplete, List.mem_filter, bne_iff_ne, ne_eq] at hm
    obtain ⟨o2, ho2, hid⟩ := hb m hm.1
    rw [ho] at ho2
    cases ho2
    exact absurd hid.symm hm.2
  · intro t htm m hm
    simp only [fadeOutComplete, List.mem_filter] at htm
    obtain ⟨o2, ho2, hid⟩ := ht t htm.1 m hm
    rw [ho] at ho2
    cases ho2
    have := htm.2
    simp [hm, hid] at this

theorem overlayInv_congr {s s2 : Page} (h : OverlayInv s)
    (h1 : s2.loadingOverlay = s.loadingOverlay) (h2 : s2.body = s.body)
    (h3 : ∀ t ∈ s2.timers, t ∈ s.timers ∨ ∀ n, t.cb ≠ .fadeOutDone n) : OverlayInv s2 := by
  obtain ⟨hb, ht⟩ := h
  refine ⟨by rw [h1, h2]; exact hb, ?_⟩
  intro t htm n hn
  rw [h1]
  rcases h3 t htm with h3 | h3
  · exact ht t h3 n hn
  · exact absurd hn (h3 n)

theorem overlayInv_disconnect {s : Page} (h : OverlayInv s) (k : Nat) :
    OverlayInv (disconnect k s) :=
  overlayInv_congr h rfl rfl (fun _ ht => Or.inl ht)

theorem overlayInv_showNotification {s : Page} (h : OverlayInv s) (m ty : String) (d : Nat)
    (o : Option Nat) : OverlayInv (showNotification m ty d o s) :=
  overlayInv_congr h rfl rfl (fun _ ht => Or.inl ht)

theorem overlayInv_setTimeout {s : Page} (h : OverlayInv s) (cb : Callback) (d : Nat)
    (hcb : ∀ n, cb ≠ .fadeOutDone n) : OverlayInv (setTimeout cb d s) := by
  refine overlayInv_congr h rfl rfl ?_
  intro t ht
  simp only [setTimeout, List.mem_append, List.mem_singleton] at ht
  rcases ht with ht | rfl
  · exact Or.inl ht
  · exact Or.inr hcb

theorem overlayInv_importClick {s : Page} (h : OverlayInv s) (o d : SelVal) :
    OverlayInv (importClick br o d s) := by
  unfold importClick
  split
  · refine overlayInv_setTimeout ?_ _ _ (by simp)
    exact overlayInv_congr (overlayInv_show h _) rfl rfl (fun _ ht => Or.inl ht)
  · exact h

theorem overlayInv_observerCallback (k : Nat) (images : Nat) :
    ∀ (records : List MutationType) {s : Page}, OverlayInv s →
      OverlayInv (observerCallback k records images s)
  | [], _, h => h
  | m :: ms, s, h => by
    have hstep : OverlayInv (onMutation k images s m) := by
      unfold onMutation
      split
      · split
        · exact overlayInv_setTimeout h _ _ (by simp)
        · exact h
      · exact h
    exact overlayInv_observerCallback k images ms hstep

theorem overlayInv_foldObservers (records : List MutationType) (images : Nat) :
    ∀ (ks : List Nat) {s : Page}, OverlayInv s →
      OverlayInv (ks.foldl (fun acc k => observerCallback k records images acc) s)
  | [], _, h => h
  | k :: ks, _, h =>
    overlayInv_foldObservers records images ks (overlayInv_observerCallback k images records h)

theorem overlayInv_deliver {s : Page} (h : OverlayInv s) (records : List MutationType)
    (images : Nat) : OverlayInv (deliver records images s) :=
  overlayInv_foldObservers records images s.observers h

theorem overlayInv_runCallback {s : Page} (h : OverlayInv s) (cb : Callback)
    (hcb : ∀ n, cb = .fadeOutDone n → ∃ o, s.loadingOverlay = some o ∧ o.id = n) :
    OverlayInv (runCallback cb s) := by
  cases cb with
  | fadeOutDone n => exact overlayInv_fadeOutComplete h n (hcb n rfl)
  | importDone k =>
    exact overlayInv_disconnect (overlayInv_showNotification (overlayInv_hide h) _ _ _ _) k
  | safety k => exact overlayInv_disconnect (overlayInv_hide h) k

theorem overlayInv_step {s : Page} (h : OverlayInv s) (e : Event) : OverlayInv (step br s e) := by
  cases e with
  | showLoading m => exact overlayInv_show h _
  | hideLoading => exact overlayInv_hide h
  | click o d => exact overlayInv_importClick h o d
  | mutations r i => exact overlayInv_deliver h r i
  | timer =>
    simp only [step]
    cases hp : popNext s.timers with
    | none => exact h
    | some p =>
      obtain ⟨t, rest⟩ := p
      obtain ⟨hmem, hrest⟩ := popNext_mem _ _ _ hp
      have h2 : OverlayInv { s with now := max s.now t.due, timers := rest } :=
        overlayInv_congr h rfl rfl (fun x hx => Or.inl (hrest x hx))
      exact overlayInv_runCallback h2 t.cb (fun n hn => h.2 t hmem n hn)
  | wait ms =>
    simp only [step]
    cases hp : popNext s.timers with
    | none => exact overlayInv_congr h rfl rfl (fun _ ht => Or.inl ht)
    | some p => exact overlayInv_congr h rfl rfl (fun _ ht => Or.inl ht)

theorem overlayInv_run : ∀ (evs : List Event) {s : Page}, OverlayInv s → OverlayInv (run br s evs)
  | [], _, h => h
  | e :: evs, _, h => overlayInv_run evs (overlayInv_step h e)

theorem overlayInv_init : OverlayInv Page.init := by
  refine ⟨?_, ?_⟩ <;> intro t ht <;> simp [Page.init] at ht


/-! ## Truthiness of the selector values -/

theorem truthy_iff (v : SelVal) : truthy v = true ↔ ∃ a, v = some a ∧ a ≠ "" := by
  cases v with
  | none => simp [truthy]
  | some s => simp [truthy]

theorem truthy_jsAnd (a b : SelVal) :
    truthy (jsAnd a b) = true ↔ (∃ x y, a = some x ∧ b = some y ∧ x ≠ "" ∧ y ≠ "") := by
  unfold jsAnd
  by_cases ha : truthy a = true
  · rw [if_pos ha]
    rw [truthy_iff] at ha ⊢
    obtain ⟨x, rfl, hx⟩ := ha
    constructor
    · rintro ⟨y, rfl, hy⟩
      exact ⟨x, y, rfl, rfl, hx, hy⟩
    · rintro ⟨x2, y, h1, rfl, _, hy⟩
      exact ⟨y, rfl, hy⟩
  · rw [if_neg ha]
    constructor
    · intro h
      exact absurd h ha
    · rintro ⟨x, y, rfl, rfl, hx, _⟩
      exact absurd ((truthy_iff _).2 ⟨x, rfl, hx⟩) ha

/-! ## A show request during the fade-out -/

/-- C9. In every reachable state with an active overlay, hideGlobalLoading
keeps the reference (only the fade-out completion, queued at least 200 ms
ahead, clears it), a showGlobalLoading issued before that completion changes
nothing, and when the completion runs no overlay node is attached and the
reference is empty: the show request is lost. -/
theorem show_during_fade_out_is_lost (br : Browser) (evs : List Event) (o : Overlay)
    (message : String)
    (h : (run br Page.init evs).loadingOverlay = some o) :
    ((hideGlobalLoading (run br Page.init evs)).loadingOverlay.map (fun x => x.id)) = some o.id ∧
    showGlobalLoading br message (hideGlobalLoading (run br Page.init evs)) =
      hideGlobalLoading (run br Page.init evs) ∧
    (∃ t ∈ (hideGlobalLoading (run br Page.init evs)).timers,
      t.cb = .fadeOutDone o.id ∧ (run br Page.init evs).now + 200 ≤ t.due) ∧
    (fadeOutComplete o.id
      (showGlobalLoading br message (hideGlobalLoading (run br Page.init evs)))).loadingOverlay = none ∧
    (fadeOutComplete o.id
      (showGlobalLoading br message (hideGlobalLoading (run br Page.init evs)))).body = [] := by
  have hinv : OverlayInv (run br Page.init evs) := overlayInv_run evs overlayInv_init
  generalize run br Page.init evs = s at hinv h
  obtain ⟨hb, -⟩ := hinv
  have hshow : showGlobalLoading br message (hideGlobalLoading s) = hideGlobalLoading s := by
    simp [showGlobalLoading, hideGlobalLoading, h]
  rw [hshow]
  refine ⟨?_, rfl, ?_, ?_, ?_⟩
  · simp [hideGlobalLoading, h]
  · refine ⟨⟨max s.now o.fxIdleAt + 200, .fadeOutDone o.id⟩, ?_, rfl, ?_⟩
    · simp [hideGlobalLoading, h]
    · simp only
      omega
  · simp [fadeOutComplete]
  · rw [List.eq_nil_iff_forall_not_mem]
    intro n hn
    simp only [fadeOutComplete, hideGlobalLoading, h, List.mem_filter, bne_iff_ne, ne_eq] at hn
    obtain ⟨o2, ho2, hid⟩ := hb n hn.1
    rw [h] at ho2
    cases ho2
    exact hn.2 hid.symm

/-- C9 at a concrete state: an overlay shown with the default message, then
hidden, then requested again. -/
theorem show_during_fade_out_is_lost_witness :
    (run tagScanner Page.init [.showLoading none]).loadingOverlay =
      some ⟨0, "Chargement...", 200⟩ ∧
    (fadeOutComplete 0 (showGlobalLoading tagScanner "again"
      (hideGlobalLoading (run tagScanner Page.init [.showLoading none])))).body = [] :=
  ⟨by decide,
   (show_during_fade_out_is_lost tagScanner [.showLoading none] ⟨0, "Chargement...", 200⟩
      "again" (by decide)).2.2.2.2⟩

/-! ## Selection validator -/

theorem not_truthy_jsAnd (a b : SelVal) :
    truthy (jsAnd a b) = false ↔ (a = none ∨ a = some "" ∨ b = none ∨ b = some "") := by
  rcases a with _ | x <;> rcases b with _ | y <;> simp [jsAnd, truthy]
  · by_cases hx : x = "" <;> simp [hx]
  · by_cases hx : x = "" <;> simp [hx]

theorem mem_addClass (c d : String) (e : Element) :
    c ∈ (addClass d e).classes ↔ c = d ∨ c ∈ e.classes := by
  unfold addClass
  split
  · constructor
    · exact Or.inr
    · rintro (rfl | h)
      · assumption
      · exact h
  · simp [or_comm]

theorem mem_removeClass (c d : String) (e : Element) :
    c ∈ (removeClass d e).classes ↔ c ≠ d ∧ c ∈ e.classes := by
  simp [removeClass, and_comm]

theorem addClass_disabled (d : String) (e : Element) : (addClass d e).disabled = e.disabled := by
  unfold addClass
  split <;> rfl

theorem addClass_idem (d : String) (e : Element) : addClass d (addClass d e) = addClass d e := by
  by_cases h : d ∈ e.classes <;> simp [addClass, h]

theorem removeClass_idem (d : String) (e : Element) :
    removeClass d (removeClass d e) = removeClass d e := by
  simp [removeClass, List.filter_filter]

/-- C6. After validateSelections the import control is disabled exactly when
one of the two selector values is empty (nothing selected, or the empty
string); with both values non-empty it carries btn-primary and not
btn-secondary, otherwise btn-secondary and not btn-primary; this for every
prior state of the control. -/
theorem validateSelections_control (organism dataset : SelVal) (btn : Element) :
    ((validateSelections organism dataset btn).1.disabled = true ↔
      (organism = none ∨ organism = some "" ∨ dataset = none ∨ dataset = some "")) ∧
    ((∃ x y, organism = some x ∧ dataset = some y ∧ x ≠ "" ∧ y ≠ "") →
      "btn-primary" ∈ (validateSelections organism dataset btn).1.classes ∧
      "btn-secondary" ∉ (validateSelections organism dataset btn).1.classes) ∧
    ((organism = none ∨ organism = some "" ∨ dataset = none ∨ dataset = some "") →
      "btn-secondary" ∈ (validateSelections organism dataset btn).1.classes ∧
      "btn-primary" ∉ (validateSelections organism dataset btn).1.classes) := by
  by_cases hv : truthy (jsAnd organism dataset) = true
  · have hne : ¬ (organism = none ∨ organism = some "" ∨ dataset = none ∨ dataset = some "") := by
      rw [← not_truthy_jsAnd, hv]
      simp
    have hfst : (validateSelections organism dataset btn).1 =
        addClass "btn-primary" (removeClass "btn-secondary" { btn with disabled := false }) := by
      simp [validateSelections, hv]
    rw [hfst]
    refine ⟨?_, ?_, fun h => absurd h hne⟩
    · rw [addClass_disabled]
      simp [removeClass, hne]
    · intro _
      rw [mem_addClass, mem_addClass]
      refine ⟨Or.inl rfl, ?_⟩
      simp [mem_removeClass]
  · have hf : truthy (jsAnd organism dataset) = false := by simpa using hv
    have he := (not_truthy_jsAnd organism dataset).1 hf
    have hfst : (validateSelections organism dataset btn).1 =
        addClass "btn-secondary" (removeClass "btn-primary" { btn with disabled := true }) := by
      simp [validateSelections, hf]
    rw [hfst]
    refine ⟨?_, ?_, ?_⟩
    · rw [addClass_disabled]
      simp [removeClass, he]
    · intro h
      exact absurd ((truthy_jsAnd organism dataset).2 h) hv
    · intro _
      rw [mem_addClass, mem_addClass]
      refine ⟨Or.inl rfl, ?_⟩
      simp [mem_removeClass]

/-! ## Responsive layout -/

theorem handleResize_eq_map (w : Nat) (page : List Element) :
    handleResize w page = page.map (resizeElement w) := by
  unfold resizeElement handleResize
  split <;>
  · simp only [onClass, List.map_map, List.map_cons, List.map_nil, List.headD_cons]
    apply List.map_congr_left
    intro e _
    rfl

theorem resizeElement_mobile (w : Nat) (hw : w < 768) (e : Element) :
    resizeElement w e =
      if "umap-container" ∈ (if "sidebar" ∈ e.classes then addClass "mobile-sidebar" e else e).classes
        then addClass "mobile-umap" (if "sidebar" ∈ e.classes then addClass "mobile-sidebar" e else e)
        else (if "sidebar" ∈ e.classes then addClass "mobile-sidebar" e else e) := by
  simp [resizeElement, handleResize, hw, onClass]

theorem resizeElement_desktop (w : Nat) (hw : ¬ w < 768) (e : Element) :
    resizeElement w e =
      if "umap-container" ∈ (if "sidebar" ∈ e.classes then removeClass "mobile-sidebar" e else e).classes
        then removeClass "mobile-umap" (if "sidebar" ∈ e.classes then removeClass "mobile-sidebar" e else e)
        else (if "sidebar" ∈ e.classes then removeClass "mobile-sidebar" e else e) := by
  simp [resizeElement, handleResize, hw, onClass]

theorem resizeElement_idem (w : Nat) (e : Element) :
    resizeElement w (resizeElement w e) = resizeElement w e := by
  by_cases hw : w < 768
  · simp only [resizeElement_mobile w hw]
    by_cases h1 : "sidebar" ∈ e.classes <;> by_cases h2 : "umap-container" ∈ e.classes <;>
      by_cases h3 : "mobile-sidebar" ∈ e.classes <;> by_cases h4 : "mobile-umap" ∈ e.classes <;>
      simp [h1, h2, h3, h4, addClass]
  · simp only [resizeElement_desktop w hw]
    by_cases h1 : "sidebar" ∈ e.classes <;> by_cases h2 : "umap-container" ∈ e.classes <;>
      simp [h1, h2, removeClass, List.filter_filter]
    congr 1
    funext a
    generalize (a != "mobile-umap") = p
    generalize (a != "mobile-sidebar") = q
    cases p <;> cases q <;> rfl

theorem resizeElement_flags (w : Nat) (e : Element) :
    ("sidebar" ∈ (resizeElement w e).classes ↔ "sidebar" ∈ e.classes) ∧
    ("umap-container" ∈ (resizeElement w e).classes ↔ "umap-container" ∈ e.classes) ∧
    ("sidebar" ∈ (resizeElement w e).classes →
      ("mobile-sidebar" ∈ (resizeElement w e).classes ↔ w < 768)) ∧
    ("umap-container" ∈ (resizeElement w e).classes →
      ("mobile-umap" ∈ (resizeElement w e).classes ↔ w < 768)) := by
  by_cases hw : w < 768
  · simp only [resizeElement_mobile w hw]
    by_cases h1 : "sidebar" ∈ e.classes <;> by_cases h2 : "umap-container" ∈ e.classes <;>
      by_cases h3 : "mobile-sidebar" ∈ e.classes <;> by_cases h4 : "mobile-umap" ∈ e.classes <;>
      simp [h1, h2, h3, h4, addClass, hw]
  · simp only [resizeElement_desktop w hw]
    by_cases h1 : "sidebar" ∈ e.classes <;> by_cases h2 : "umap-container" ∈ e.classes <;>
      simp [h1, h2, removeClass, hw]

/-- C7. After handleResize at viewport width w, every sidebar element carries
mobile-sidebar and every UMAP container carries mobile-umap exactly when
w < 768, whatever classes they carried before (so 767 gives the mobile layout
and 768 the desktop layout); the elements that are sidebars or UMAP containers
are the same as before; and running handleResize a second time at the same
width changes nothing. -/
theorem handleResize_breakpoint (w : Nat) (page : List Element) :
    (∀ e ∈ handleResize w page, "sidebar" ∈ e.classes →
      ("mobile-sidebar" ∈ e.classes ↔ w < 768)) ∧
    (∀ e ∈ handleResize w page, "umap-container" ∈ e.classes →
      ("mobile-umap" ∈ e.classes ↔ w < 768)) ∧
    (handleResize w page).map (fun e => decide ("sidebar" ∈ e.classes)) =
      page.map (fun e => decide ("sidebar" ∈ e.classes)) ∧
    (handleResize w page).map (fun e => decide ("umap-container" ∈ e.classes)) =
      page.map (fun e => decide ("umap-container" ∈ e.classes)) ∧
    handleResize w (handleResize w page) = handleResize w page := by
  refine ⟨?_, ?_, ?_, ?_, ?_⟩
  · intro e he
    rw [handleResize_eq_map, List.mem_map] at he
    obtain ⟨a, _, rfl⟩ := he
    exact (resizeElement_flags w a).2.2.1
  · intro e he
    rw [handleResize_eq_map, List.mem_map] at he
    obtain ⟨a, _, rfl⟩ := he
    exact (resizeElement_flags w a).2.2.2
  · rw [handleResize_eq_map, List.map_map]
    apply List.map_congr_left
    intro e _
    simp only [Function.comp, (resizeElement_flags w e).1]
  · rw [handleResize_eq_map, List.map_map]
    apply List.map_congr_left
    intro e _
    simp only [Function.comp, (resizeElement_flags w e).2.1]
  · rw [handleResize_eq_map w (handleResize w page), handleResize_eq_map w page, List.map_map]
    apply List.map_congr_left
    intro e _
    exact resizeElement_idem w e

/-! ## Import trigger -/

/-- C2. With no overlay active, the click handler of #import_dataset creates a
loading overlay (with the contextual message, and with the nodes the browser
builds from its markup: at least one, exactly one when the message holds no
markup), connects a watcher and starts the 300000 ms safety timer exactly when
both selector values are non-empty; when either is empty (nothing selected, or
the empty string) the page is left as it was: no overlay, no watcher, no
timer. -/
theorem importClick_iff_both_selected (br : Browser) (organism dataset : SelVal) (s : Page)
    (h : s.loadingOverlay = none) :
    ((∃ x y, organism = some x ∧ dataset = some y ∧ x ≠ "" ∧ y ≠ "") →
      importClick br organism dataset s =
        { s with
          loadingOverlay := some ⟨s.nextId, importMessage organism dataset, s.now + 200⟩
          body := s.body ++ List.replicate
            (br.overlayNodes (overlayMarkup (importMessage organism dataset))) s.nextId
          observers := s.observers ++ [s.nextId + 1]
          timers := s.timers ++ [⟨s.now + 300000, .safety (s.nextId + 1)⟩]
          nextId := s.nextId + 2 }) ∧
    ((∃ x y, organism = some x ∧ dataset = some y ∧ x ≠ "" ∧ y ≠ "") →
      plainText (importMessage organism dataset) = true →
      (importClick br organism dataset s).body = s.body ++ [s.nextId]) ∧
    ((organism = none ∨ organism = some "" ∨ dataset = none ∨ dataset = some "") →
      importClick br organism dataset s = s) ∧
    ((importClick br organism dataset s).loadingOverlay ≠ none ↔
      (∃ x y, organism = some x ∧ dataset = some y ∧ x ≠ "" ∧ y ≠ "")) ∧
    (s.body.length < (importClick br organism dataset s).body.length ↔
      (∃ x y, organism = some x ∧ dataset = some y ∧ x ≠ "" ∧ y ≠ "")) ∧
    ((importClick br organism dataset s).observers.length = s.observers.length + 1 ↔
      (∃ x y, organism = some x ∧ dataset = some y ∧ x ≠ "" ∧ y ≠ "")) ∧
    ((importClick br organism dataset s).timers.length = s.timers.length + 1 ↔
      (∃ x y, organism = some x ∧ dataset = some y ∧ x ≠ "" ∧ y ≠ "")) := by
  by_cases hv : truthy (jsAnd organism dataset) = true
  · have hA := (truthy_jsAnd organism dataset).1 hv
    have hne : ¬ (organism = none ∨ organism = some "" ∨ dataset = none ∨ dataset = some "") := by
      rw [← not_truthy_jsAnd, hv]
      simp
    have hpos := br.overlayNodes_pos (importMessage organism dataset)
    have heq : importClick br organism dataset s =
        { s with
          loadingOverlay := some ⟨s.nextId, importMessage organism dataset, s.now + 200⟩
          body := s.body ++ List.replicate
            (br.overlayNodes (overlayMarkup (importMessage organism dataset))) s.nextId
          observers := s.observers ++ [s.nextId + 1]
          timers := s.timers ++ [⟨s.now + 300000, .safety (s.nextId + 1)⟩]
          nextId := s.nextId + 2 } := by
      simp [importClick, hv, setTimeout, observe, importObserver, showGlobalLoading, h]
    refine ⟨fun _ => heq, ?_, fun he => absurd he hne, iff_of_true ?_ hA, iff_of_true ?_ hA,
      iff_of_true ?_ hA, iff_of_true ?_ hA⟩
    · intro _ hp
      rw [heq]
      simp [br.overlayNodes_plain _ hp]
    · simp [heq]
    · rw [heq]
      simp only [List.length_append, List.length_replicate]
      omega
    · simp [heq]
    · simp [heq]
  · have hf : truthy (jsAnd organism dataset) = false := by simpa using hv
    have hA : ¬ (∃ x y, organism = some x ∧ dataset = some y ∧ x ≠ "" ∧ y ≠ "") :=
      fun hA => hv ((truthy_jsAnd organism dataset).2 hA)
    have heq : importClick br organism dataset s = s := by
      simp [importClick, hf]
    refine ⟨fun hx => absurd hx hA, fun hx => absurd hx hA, fun _ => heq, iff_of_false ?_ hA,
      iff_of_false ?_ hA, iff_of_false ?_ hA, iff_of_false ?_ hA⟩ <;> simp [heq, h]

/-- C2 at concrete selector values, from the initial page. -/
theorem importClick_iff_both_selected_witness :
    (importClick tagScanner (some "Human") (some "GSE1") Page.init).observers = [1] ∧
    (importClick tagScanner (some "Human") (some "GSE1") Page.init).body = [0] ∧
    importClick tagScanner (some "Human") (some "") Page.init = Page.init :=
  ⟨by rw [(importClick_iff_both_selected tagScanner (some "Human") (some "GSE1") Page.init rfl).1
      ⟨"Human", "GSE1", rfl, rfl, by decide, by decide⟩]; rfl,
   (importClick_iff_both_selected tagScanner (some "Human") (some "GSE1") Page.init rfl).2.1
      ⟨"Human", "GSE1", rfl, rfl, by decide, by decide⟩ (by decide),
   (importClick_iff_both_selected tagScanner (some "Human") (some "") Page.init rfl).2.2.1
      (Or.inr (Or.inr (Or.inr rfl)))⟩

/-! ## Runs of the import flow and the export statement -/

/-- C10. The safety timer of an import survives that import's completion.
Import A (watcher 1) is triggered at time 0 and completes at 6000 ms; import B
(watcher 3) is triggered at 10000 ms. The next timed callback is then A's
safety closure, due at 300000 ms: it calls hideGlobalLoading on B's overlay
(node 2), whose fade-out completes at 300200 ms. B's overlay is then gone
although B's watcher is still connected, B has shown no success notification,
and B's own safety timer is only due at 310000 ms. -/
theorem stale_safety_timer_hides_later_import :
    run tagScanner Page.init [Event.click (some "Human") (some "GSE1")] =
      { now := 0, nextId := 2,
        loadingOverlay := some ⟨0, "Chargement du dataset GSE1 pour Human...", 200⟩,
        body := [0], observers := [1], timers := [⟨300000, .safety 1⟩], notifications := [] } ∧
    run tagScanner Page.init firstImport =
      { now := 10000, nextId := 2, loadingOverlay := none, body := [], observers := [],
        timers := [⟨300000, .safety 1⟩],
        notifications := [⟨"Dataset chargé avec succès!", "success", 3000, some 1⟩] } ∧
    run tagScanner Page.init (firstImport ++ [secondClick]) =
      { now := 10000, nextId := 4,
        loadingOverlay := some ⟨2, "Chargement du dataset GSE2 pour Mouse...", 10200⟩,
        body := [2], observers := [3],
        timers := [⟨300000, .safety 1⟩, ⟨310000, .safety 3⟩],
        notifications := [⟨"Dataset chargé avec succès!", "success", 3000, some 1⟩] } ∧
    popNext (run tagScanner Page.init (firstImport ++ [secondClick])).timers =
      some (⟨300000, .safety 1⟩, [⟨310000, .safety 3⟩]) ∧
    run tagScanner Page.init (firstImport ++ [secondClick, .timer]) =
      disconnect 1 (hideGlobalLoading
        { run tagScanner Page.init (firstImport ++ [secondClick]) with
          now := 300000, timers := [⟨310000, .safety 3⟩] }) ∧
    run tagScanner Page.init (firstImport ++ [secondClick, .timer]) =
      { now := 300000, nextId := 4,
        loadingOverlay := some ⟨2, "Chargement du dataset GSE2 pour Mouse...", 300200⟩,
        body := [2], observers := [3],
        timers := [⟨310000, .safety 3⟩, ⟨300200, .fadeOutDone 2⟩],
        notifications := [⟨"Dataset chargé avec succès!", "success", 3000, some 1⟩] } ∧
    run tagScanner Page.init (firstImport ++ [secondClick, .timer, .timer]) =
      { now := 300200, nextId := 4, loadingOverlay := none, body := [], observers := [3],
        timers := [⟨310000, .safety 3⟩],
        notifications := [⟨"Dataset chargé avec succès!", "success", 3000, some 1⟩] } := by
  refine ⟨?_, ?_, ?_, ?_, ?_, ?_, ?_⟩ <;> decide

/-- C3 (evaluation at the failing input). After an import with both selectors
populated, one batch of two child-list records delivered while an image is
present schedules the completion closure twice: both run at 1000 ms and two
success notifications are shown for the one import. -/
theorem completion_runs_once_per_record :
    (run tagScanner Page.init [.click (some "Human") (some "GSE1"),
      .mutations [.childList, .childList] 1]).timers =
      [⟨300000, .safety 1⟩, ⟨1000, .importDone 1⟩, ⟨1000, .importDone 1⟩] ∧
    (run tagScanner Page.init [.click (some "Human") (some "GSE1"),
      .mutations [.childList, .childList] 1, .timer, .timer]).notifications =
      [⟨"Dataset chargé avec succès!", "success", 3000, some 1⟩,
       ⟨"Dataset chargé avec succès!", "success", 3000, some 1⟩] ∧
    (run tagScanner Page.init [.click (some "Human") (some "GSE1"),
      .mutations [.childList, .childList] 1, .timer, .timer]).now = 1000 := by
  refine ⟨?_, ?_, ?_⟩ <;> decide

/-- C5 (evaluation at the failing input). Evaluated at the top level of the
script, the object literal of lines 369-376 refers to showGlobalLoading, which
is bound only inside the ready callback: the assignment raises a
ReferenceError and window.MASLDInterface is never set. Evaluated in the scope
of the ready callback the same literal would yield the six members. -/
theorem exports_raise_reference_error :
    assignExports hostGlobals = .error (.referenceError "showGlobalLoading") ∧
    "showGlobalLoading" ∈ readyScope ∧
    "showGlobalLoading" ∉ hostGlobals ++ scriptScope ∧
    evalObject (hostGlobals ++ readyScope) exportLiteral =
      .ok [("showLoading", .bound "showGlobalLoading"),
           ("hideLoading", .bound "hideGlobalLoading"),
           ("showSuccess", .bound "showSuccessNotification"),
           ("showWarning", .bound "showWarningNotification"),
           ("showError", .bound "showErrorNotification"),
           ("showInfo", .closure ["message"])] := by
  refine ⟨rfl, by decide, by decide, rfl⟩

/-! ## Organism selector: containment, not leading position -/

theorem includesChars_singleton (g : Char) : ∀ l : List Char, includesChars [g] l = true ↔ g ∈ l
  | [] => by simp [includesChars, List.isPrefixOf]
  | c :: cs => by
    have ih := includesChars_singleton g cs
    simp only [includesChars, List.isPrefixOf, Bool.or_eq_true, Bool.and_eq_true, ih,
      List.mem_cons, beq_iff_eq, and_true]

theorem includes_check (text : String) : includes text "✅" = true ↔ '✅' ∈ text.data :=
  includesChars_singleton '✅' text.data

theorem includes_circle (text : String) : includes text "⚪" = true ↔ '⚪' ∈ text.data :=
  includesChars_singleton '⚪' text.data

theorem includes_hourglass (text : String) : includes text "⏳" = true ↔ '⏳' ∈ text.data :=
  includesChars_singleton '⏳' text.data

theorem enhanceOption_rule (o : OptionEl) :
    (enhanceOption o).text = o.text ∧
    ('✅' ∈ o.text.data → (enhanceOption o).dataStatus = some "available") ∧
    ('✅' ∉ o.text.data → '⚪' ∈ o.text.data →
      (enhanceOption o).dataStatus = some "optional") ∧
    ('✅' ∉ o.text.data → '⚪' ∉ o.text.data → '⏳' ∈ o.text.data →
      (enhanceOption o).dataStatus = some "loading") ∧
    ('✅' ∉ o.text.data → '⚪' ∉ o.text.data → '⏳' ∉ o.text.data →
      enhanceOption o = o) := by
  unfold enhanceOption
  by_cases h1 : '✅' ∈ o.text.data
  · simp [(includes_check o.text).2 h1, h1]
  · have h1f : includes o.text "✅" = false := by
      simpa using (not_congr (includes_check o.text)).2 h1
    by_cases h2 : '⚪' ∈ o.text.data
    · simp [h1f, (includes_circle o.text).2 h2, h1, h2]
    · have h2f : includes o.text "⚪" = false := by
        simpa using (not_congr (includes_circle o.text)).2 h2
      by_cases h3 : '⏳' ∈ o.text.data
      · simp [h1f, h2f, (includes_hourglass o.text).2 h3, h1, h2, h3]
      · have h3f : includes o.text "⏳" = false := by
          simpa using (not_congr (includes_hourglass o.text)).2 h3
        simp [h1f, h2f, h3f, h1, h2, h3]

/-- C8 as stated fails. The label "Human ✅" does not begin with a status glyph,
so the attribute should stay untouched, yet the code sets it to available; the
label "⚪ Mouse ✅" begins with the circle glyph, so the status should be
optional, yet the code sets available. -/
theorem enhanceOption_not_leading_glyph :
    leadingGlyphStatus "Human ✅" = none ∧
    (enhanceOptionSpec ⟨"Human ✅", none⟩).dataStatus = none ∧
    (enhanceOrganismSelector [⟨"Human ✅", none⟩]).map (fun o => o.dataStatus) =
      [some "available"] ∧
    leadingGlyphStatus "⚪ Mouse ✅" = some "optional" ∧
    (enhanceOrganismSelector [⟨"⚪ Mouse ✅", none⟩]).map (fun o => o.dataStatus) =
      [some "available"] := by
  refine ⟨?_, ?_, ?_, ?_, ?_⟩ <;> decide

/-- C8, amended. For every option of the organism selector,
enhanceOrganismSelector keeps the label and sets data-status to available when
the label contains the checkmark glyph anywhere, else to optional when it
contains the circle glyph, else to loading when it contains the hourglass
glyph, and leaves the option untouched when the label contains none of the
three glyphs. -/
theorem enhanceOrganismSelector_containment (options : List OptionEl) :
    List.Forall₂
      (fun o r =>
        r.text = o.text ∧
        ('✅' ∈ o.text.data → r.dataStatus = some "available") ∧
        ('✅' ∉ o.text.data → '⚪' ∈ o.text.data → r.dataStatus = some "optional") ∧
        ('✅' ∉ o.text.data → '⚪' ∉ o.text.data → '⏳' ∈ o.text.data →
          r.dataStatus = some "loading") ∧
        ('✅' ∉ o.text.data → '⚪' ∉ o.text.data → '⏳' ∉ o.text.data → r = o))
      options (enhanceOrganismSelector options) := by
  induction options with
  | nil => exact List.Forall₂.nil
  | cons o os ih => exact List.Forall₂.cons (enhanceOption_rule o) ih

/-! ## Timed callbacks and mutation batches -/

theorem popNext_none : ∀ (ts : List Timer), popNext ts = none → ts = []
  | [], _ => rfl
  | a :: ts, h => by
    unfold popNext at h
    cases hp : popNext ts with
    | none => rw [hp] at h; simp at h
    | some p =>
      rw [hp] at h
      simp only at h
      split at h <;> simp at h

theorem popNext_spec : ∀ (ts : List Timer) (t : Timer) (rest : List Timer),
    popNext ts = some (t, rest) →
      (∀ x ∈ ts, t.due ≤ x.due) ∧ (∀ x ∈ ts, x = t ∨ x ∈ rest)
  | [], t, rest, h => by simp [popNext] at h
  | a :: ts, t, rest, h => by
    unfold popNext at h
    cases hp : popNext ts with
    | none =>
      rw [hp] at h
      simp at h
      obtain ⟨rfl, rfl⟩ := h
      have := popNext_none ts hp
      subst this
      simp
    | some p =>
      obtain ⟨u, r⟩ := p
      rw [hp] at h
      have ih := popNext_spec ts u r hp
      simp only at h
      split at h
      · rename_i hle
        simp at h
        obtain ⟨rfl, rfl⟩ := h
        refine ⟨?_, ?_⟩
        · intro x hx
          rcases List.mem_cons.1 hx with rfl | hx
          · exact le_rfl
          · exact le_trans hle (ih.1 x hx)
        · intro x hx
          rcases List.mem_cons.1 hx with rfl | hx
          · exact Or.inl rfl
          · exact Or.inr hx
      · rename_i hle
        simp at h
        obtain ⟨rfl, rfl⟩ := h
        refine ⟨?_, ?_⟩
        · intro x hx
          rcases List.mem_cons.1 hx with rfl | hx
          · omega
          · exact ih.1 x hx
        · intro x hx
          rcases List.mem_cons.1 hx with rfl | hx
          · exact Or.inr (List.mem_cons_self _ _)
          · rcases ih.2 x hx with h1 | h1
            · exact Or.inl h1
            · exact Or.inr (List.mem_cons_of_mem _ h1)

@[simp] theorem showGlobalLoading_now (m : String) (s : Page) :
    (showGlobalLoading br m s).now = s.now := by
  unfold showGlobalLoading; split <;> rfl

@[simp] theorem showGlobalLoading_observers (m : String) (s : Page) :
    (showGlobalLoading br m s).observers = s.observers := by
  unfold showGlobalLoading; split <;> rfl

@[simp] theorem showGlobalLoading_timers (m : String) (s : Page) :
    (showGlobalLoading br m s).timers = s.timers := by
  unfold showGlobalLoading; split <;> rfl

@[simp] theorem showGlobalLoading_notifications (m : String) (s : Page) :
    (showGlobalLoading br m s).notifications = s.notifications := by
  unfold showGlobalLoading; split <;> rfl

theorem showGlobalLoading_nextId (br : Browser) (m : String) (s : Page) :
    s.nextId ≤ (showGlobalLoading br m s).nextId := by
  unfold showGlobalLoading; split <;> simp

@[simp] theorem hideGlobalLoading_now (s : Page) : (hideGlobalLoading s).now = s.now := by
  unfold hideGlobalLoading; split <;> rfl

@[simp] theorem hideGlobalLoading_nextId (s : Page) :
    (hideGlobalLoading s).nextId = s.nextId := by
  unfold hideGlobalLoading; split <;> rfl

@[simp] theorem hideGlobalLoading_observers (s : Page) :
    (hideGlobalLoading s).observers = s.observers := by
  unfold hideGlobalLoading; split <;> rfl

@[simp] theorem hideGlobalLoading_notifications (s : Page) :
    (hideGlobalLoading s).notifications = s.notifications := by
  unfold hideGlobalLoading; split <;> rfl

theorem mem_hideGlobalLoading_timers (s : Page) (t : Timer) :
    t ∈ (hideGlobalLoading s).timers ↔
      t ∈ s.timers ∨ ∃ o, s.loadingOverlay = some o ∧
        t = ⟨max s.now o.fxIdleAt + 200, .fadeOutDone o.id⟩ := by
  unfold hideGlobalLoading
  cases h : s.loadingOverlay with
  | none => simp
  | some o => simp

theorem observerCallback_eq (k images : Nat) : ∀ (records : List MutationType) (s : Page),
    observerCallback k records images s =
      { s with timers := s.timers ++ completions k records images s.now }
  | [], s => by simp [observerCallback, completions]
  | m :: ms, s => by
    have ih := observerCallback_eq k images ms (onMutation k images s m)
    simp only [observerCallback, List.foldl_cons, completions] at ih ⊢
    rw [ih]
    by_cases hi : 0 < images <;> by_cases hm : m = .childList
    · subst hm
      simp [onMutation, hi, setTimeout, List.replicate_succ, List.count_cons_self]
    · simp [onMutation, hi, hm, List.count_cons_of_ne (Ne.symm hm)]
    · simp [onMutation, hi, hm]
    · simp [onMutation, hi, hm]

theorem foldl_observerCallback_eq (records : List MutationType) (images : Nat) :
    ∀ (ks : List Nat) (s : Page),
      ks.foldl (fun acc k => observerCallback k records images acc) s =
        { s with timers := s.timers ++ ks.flatMap (fun k => completions k records images s.now) }
  | [], s => by simp
  | k :: ks, s => by
    rw [List.foldl_cons, foldl_observerCallback_eq records images ks, observerCallback_eq]
    simp [List.append_assoc]

theorem deliver_eq (records : List MutationType) (images : Nat) (s : Page) :
    deliver records images s =
      { s with timers := s.timers ++ s.observers.flatMap (fun k => completions k records images s.now) } :=
  foldl_observerCallback_eq records images s.observers s

theorem mem_deliver_timers (records : List MutationType) (images : Nat) (s : Page) (t : Timer) :
    t ∈ (deliver records images s).timers ↔
      t ∈ s.timers ∨ (detects records images = true ∧
        ∃ k ∈ s.observers, t = ⟨s.now + 1000, .importDone k⟩) := by
  rw [deliver_eq]
  simp only [List.mem_append, List.mem_flatMap, List.mem_replicate, detects, completions]
  by_cases hi : 0 < images
  · simp [hi, List.count_eq_zero]
    tauto
  · simp [hi]

/-! ## Time and freshness invariants -/

theorem timeInv_runCallback {s : Page} (h : TimeInv s) (cb : Callback) :
    TimeInv (runCallback cb s) := by
  intro t ht
  cases cb with
  | fadeOutDone n =>
    simp only [runCallback, fadeOutComplete, List.mem_filter] at ht ⊢
    exact h t ht.1
  | importDone k =>
    simp only [runCallback, disconnect, showSuccessNotification, showNotification,
      mem_hideGlobalLoading_timers, hideGlobalLoading_now] at ht ⊢
    rcases ht with ht | ⟨o, _, rfl⟩
    · exact h t ht
    · simp only
      omega
  | safety k =>
    simp only [runCallback, disconnect, mem_hideGlobalLoading_timers,
      hideGlobalLoading_now] at ht ⊢
    rcases ht with ht | ⟨o, _, rfl⟩
    · exact h t ht
    · simp only
      omega

theorem timeInv_step {s : Page} (h : TimeInv s) (e : Event) : TimeInv (step br s e) := by
  cases e with
  | showLoading m =>
    intro t ht
    simp only [step, showGlobalLoading_timers, showGlobalLoading_now] at ht ⊢
    exact h t ht
  | hideLoading =>
    intro t ht
    simp only [step, mem_hideGlobalLoading_timers, hideGlobalLoading_now] at ht ⊢
    rcases ht with ht | ⟨o, _, rfl⟩
    · exact h t ht
    · simp only
      omega
  | click o d =>
    intro t ht
    simp only [step, importClick] at ht ⊢
    split at ht
    · rename_i hv
      simp only [hv, if_true, setTimeout, observe, showGlobalLoading_timers,
        showGlobalLoading_now, List.mem_append, List.mem_singleton] at ht ⊢
      rcases ht with ht | rfl
      · exact h t ht
      · simp
    · rename_i hv
      simp only [hv]
      exact h t ht
  | mutations r i =>
    intro t ht
    rw [step, mem_deliver_timers] at ht
    have hnow : (step br s (.mutations r i)).now = s.now := by
      simp [step, deliver_eq]
    rw [hnow]
    rcases ht with ht | ⟨_, k, _, rfl⟩
    · exact h t ht
    · simp
  | timer =>
    simp only [step]
    cases hp : popNext s.timers with
    | none => exact h
    | some p =>
      obtain ⟨t, rest⟩ := p
      obtain ⟨hmem, hrest⟩ := popNext_mem _ _ _ hp
      obtain ⟨hmin, -⟩ := popNext_spec _ _ _ hp
      apply timeInv_runCallback
      intro x hx
      have h1 := h x (hrest x hx)
      have h2 := hmin x (hrest x hx)
      simp only
      omega
  | wait ms =>
    simp only [step]
    cases hp : popNext s.timers with
    | none =>
      intro x hx
      simp only [popNext_none _ hp] at hx
      cases hx
    | some p =>
      obtain ⟨t, rest⟩ := p
      obtain ⟨hmin, -⟩ := popNext_spec _ _ _ hp
      intro x hx
      have h1 := h x hx
      have h2 := hmin x hx
      simp only
      omega

theorem timeInv_run : ∀ (evs : List Event) {s : Page}, TimeInv s → TimeInv (run br s evs)
  | [], _, h => h
  | e :: evs, _, h => timeInv_run evs (timeInv_step h e)

theorem timeInv_init : TimeInv Page.init := by
  intro t ht
  simp [Page.init] at ht

@[simp] theorem runCallback_nextId (cb : Callback) (s : Page) :
    (runCallback cb s).nextId = s.nextId := by
  cases cb <;>
    simp [runCallback, fadeOutComplete, disconnect, showSuccessNotification, showNotification]

@[simp] theorem runCallback_now (cb : Callback) (s : Page) :
    (runCallback cb s).now = s.now := by
  cases cb <;>
    simp [runCallback, fadeOutComplete, disconnect, showSuccessNotification, showNotification]

theorem step_nextId_le (br : Browser) (s : Page) (e : Event) : s.nextId ≤ (step br s e).nextId := by
  cases e with
  | showLoading m => exact showGlobalLoading_nextId br _ s
  | hideLoading => simp [step]
  | click o d =>
    simp only [step, importClick]
    split
    · have := showGlobalLoading_nextId br (importMessage o d) s
      simp only [setTimeout, observe]
      omega
    · exact le_rfl
  | mutations r i => simp [step, deliver_eq]
  | timer =>
    simp only [step]
    cases hp : popNext s.timers with
    | none => exact le_rfl
    | some p =>
      simp
  | wait ms =>
    simp only [step]
    cases hp : popNext s.timers <;> exact le_rfl

theorem mem_runCallback_observers (cb : Callback) (s : Page) (j : Nat) :
    j ∈ (runCallback cb s).observers ↔
      j ∈ s.observers ∧ cb ≠ .importDone j ∧ cb ≠ .safety j := by
  cases cb with
  | fadeOutDone n => simp [runCallback, fadeOutComplete]
  | importDone k =>
    simp only [runCallback, disconnect, showSuccessNotification, showNotification,
      hideGlobalLoading_observers, List.mem_filter, bne_iff_ne, ne_eq, Callback.importDone.injEq,
      not_false_eq_true, and_true, reduceCtorEq]
    exact and_congr_right (fun _ => not_congr eq_comm)
  | safety k =>
    simp only [runCallback, disconnect, hideGlobalLoading_observers, List.mem_filter,
      bne_iff_ne, ne_eq, Callback.safety.injEq, not_false_eq_true, true_and, reduceCtorEq]
    exact and_congr_right (fun _ => not_congr eq_comm)

theorem mem_runCallback_timers (cb : Callback) (s : Page) (t : Timer)
    (h : t ∈ (runCallback cb s).timers) : t ∈ s.timers ∨ ∃ n, t.cb = .fadeOutDone n := by
  cases cb with
  | fadeOutDone n =>
    simp only [runCallback, fadeOutComplete, List.mem_filter] at h
    exact Or.inl h.1
  | importDone k =>
    simp only [runCallback, disconnect, showSuccessNotification, showNotification,
      mem_hideGlobalLoading_timers] at h
    rcases h with h | ⟨o, _, rfl⟩
    · exact Or.inl h
    · exact Or.inr ⟨_, rfl⟩
  | safety k =>
    simp only [runCallback, disconnect, mem_hideGlobalLoading_timers] at h
    rcases h with h | ⟨o, _, rfl⟩
    · exact Or.inl h
    · exact Or.inr ⟨_, rfl⟩

theorem mem_timers_runCallback (cb : Callback) (s : Page) (t : Timer) (h : t ∈ s.timers)
    (hne : ∀ n, t.cb ≠ .fadeOutDone n) : t ∈ (runCallback cb s).timers := by
  cases cb with
  | fadeOutDone n =>
    simp only [runCallback, fadeOutComplete, List.mem_filter]
    exact ⟨h, by simpa using hne n⟩
  | importDone k =>
    simp only [runCallback, disconnect, showSuccessNotification, showNotification,
      mem_hideGlobalLoading_timers]
    exact Or.inl h
  | safety k =>
    simp only [runCallback, disconnect, mem_hideGlobalLoading_timers]
    exact Or.inl h

theorem mem_runCallback_notifications (cb : Callback) (s : Page) (n : Notification) :
    n ∈ (runCallback cb s).notifications ↔
      n ∈ s.notifications ∨
        ∃ k, cb = .importDone k ∧ n = ⟨"Dataset chargé avec succès!", "success", 3000, some k⟩ := by
  cases cb <;>
    simp [runCallback, fadeOutComplete, disconnect, showSuccessNotification, showNotification]

theorem importClick_of_truthy (br : Browser) (o d : SelVal) (s : Page) (hv : truthy (jsAnd o d) = true) :
    (importClick br o d s).now = s.now ∧
    (importClick br o d s).nextId = importObserver br o d s + 1 ∧
    (importClick br o d s).observers = s.observers ++ [importObserver br o d s] ∧
    (importClick br o d s).timers =
      s.timers ++ [⟨s.now + 300000, .safety (importObserver br o d s)⟩] ∧
    (importClick br o d s).notifications = s.notifications ∧
    s.nextId ≤ importObserver br o d s := by
  simp [importClick, hv, setTimeout, observe, importObserver, showGlobalLoading_nextId br]

theorem importClick_of_not_truthy (br : Browser) (o d : SelVal) (s : Page) (hv : ¬ truthy (jsAnd o d) = true) :
    importClick br o d s = s := by
  simp [importClick, hv]

theorem freshInv_step {s : Page} (h : FreshInv s) (e : Event) : FreshInv (step br s e) := by
  obtain ⟨ho, ht, hn⟩ := h
  have hle := step_nextId_le br s e
  cases e with
  | showLoading m =>
    simp only [step] at hle ⊢
    refine ⟨?_, ?_, ?_⟩
    · intro j hj
      rw [showGlobalLoading_observers] at hj
      exact lt_of_lt_of_le (ho j hj) hle
    · intro t htm j hj
      rw [showGlobalLoading_timers] at htm
      exact lt_of_lt_of_le (ht t htm j hj) hle
    · intro n hnm j hj
      rw [showGlobalLoading_notifications] at hnm
      exact lt_of_lt_of_le (hn n hnm j hj) hle
  | hideLoading =>
    simp only [step]
    refine ⟨?_, ?_, ?_⟩
    · simpa using ho
    · intro t htm j hj
      rw [mem_hideGlobalLoading_timers] at htm
      rw [hideGlobalLoading_nextId]
      rcases htm with htm | ⟨o, _, rfl⟩
      · exact ht t htm j hj
      · simp at hj
    · simpa using hn
  | click o d =>
    simp only [step] at hle ⊢
    by_cases hv : truthy (jsAnd o d) = true
    · obtain ⟨-, h2, h3, h4, h5, h6⟩ := importClick_of_truthy br o d s hv
      refine ⟨?_, ?_, ?_⟩
      · intro j hj
        rw [h3, List.mem_append, List.mem_singleton] at hj
        rw [h2]
        rcases hj with hj | rfl
        · have := ho j hj
          omega
        · omega
      · intro t htm j hj
        rw [h4, List.mem_append, List.mem_singleton] at htm
        rw [h2]
        rcases htm with htm | rfl
        · have := ht t htm j hj
          omega
        · simp at hj
          omega
      · intro n hnm j hj
        rw [h5] at hnm
        rw [h2]
        have := hn n hnm j hj
        omega
    · rw [importClick_of_not_truthy br o d s hv]
      exact ⟨ho, ht, hn⟩
  | mutations r i =>
    have hid : (step br s (.mutations r i)).nextId = s.nextId := by
      simp [step, deliver_eq]
    have hobs : (step br s (.mutations r i)).observers = s.observers := by
      simp [step, deliver_eq]
    have hnot : (step br s (.mutations r i)).notifications = s.notifications := by
      simp [step, deliver_eq]
    refine ⟨?_, ?_, ?_⟩
    · rw [hid, hobs]
      exact ho
    · intro t htm j hj
      rw [step, mem_deliver_timers] at htm
      rw [hid]
      rcases htm with htm | ⟨_, k, hk, rfl⟩
      · exact ht t htm j hj
      · simp at hj
        subst hj
        exact ho _ hk
    · rw [hid, hnot]
      exact hn
  | timer =>
    simp only [step] at hle ⊢
    cases hp : popNext s.timers with
    | none => exact ⟨ho, ht, hn⟩
    | some p =>
      obtain ⟨t, rest⟩ := p
      obtain ⟨hmem, hrest⟩ := popNext_mem _ _ _ hp
      simp only
      refine ⟨?_, ?_, ?_⟩
      · intro j hj
        rw [mem_runCallback_observers] at hj
        simpa using ho j hj.1
      · intro x hx j hj
        rw [runCallback_nextId]
        rcases mem_runCallback_timers _ _ _ hx with hx | ⟨n, hx⟩
        · exact ht x (hrest x hx) j hj
        · rw [hx] at hj
          simp at hj
      · intro n hnm j hj
        rw [runCallback_nextId]
        rw [mem_runCallback_notifications] at hnm
        rcases hnm with hnm | ⟨k, hk, rfl⟩
        · exact hn n hnm j hj
        · simp at hj
          subst hj
          exact ht t hmem k (Or.inl hk)
  | wait ms =>
    simp only [step]
    cases hp : popNext s.timers with
    | none => exact ⟨ho, ht, hn⟩
    | some p => exact ⟨ho, ht, hn⟩

theorem freshInv_run : ∀ (evs : List Event) {s : Page}, FreshInv s → FreshInv (run br s evs)
  | [], _, h => h
  | e :: evs, _, h => freshInv_run evs (freshInv_step h e)

theorem freshInv_init : FreshInv Page.init := by
  refine ⟨?_, ?_, ?_⟩ <;> intro x hx <;> simp [Page.init] at hx

/-! ## Overlay nodes and markup in the message -/

@[simp] theorem hideGlobalLoading_body (s : Page) : (hideGlobalLoading s).body = s.body := by
  unfold hideGlobalLoading; split <;> rfl

theorem runCallback_body_length (cb : Callback) (s : Page) :
    (runCallback cb s).body.length ≤ s.body.length := by
  cases cb with
  | fadeOutDone n =>
    simp only [runCallback, fadeOutComplete]
    exact List.length_filter_le _ _
  | importDone k =>
    simp [runCallback, disconnect, showSuccessNotification, showNotification]
  | safety k => simp [runCallback, disconnect]

theorem showGlobalLoading_body_none (br : Browser) (m : String) (s : Page)
    (h : s.loadingOverlay = none) :
    (showGlobalLoading br m s).body =
      s.body ++ List.replicate (br.overlayNodes (overlayMarkup m)) s.nextId := by
  simp [showGlobalLoading, h]

theorem showGlobalLoading_of_some (br : Browser) (m : String) (s : Page)
    (h : s.loadingOverlay ≠ none) : showGlobalLoading br m s = s := by
  unfold showGlobalLoading
  cases ho : s.loadingOverlay with
  | none => exact absurd ho h
  | some o => rfl

theorem body_nil_of_no_overlay {s : Page} (h : OverlayInv s) (hn : s.loadingOverlay = none) :
    s.body = [] := by
  rw [List.eq_nil_iff_forall_not_mem]
  intro n hmem
  obtain ⟨o, ho, -⟩ := h.1 n hmem
  rw [hn] at ho
  cases ho

theorem showGlobalLoading_plain_length {s : Page} (h : OverlayInv s)
    (hl : s.body.length ≤ 1) (m : String) (hp : plainText m = true) :
    (showGlobalLoading br m s).body.length ≤ 1 := by
  by_cases hn : s.loadingOverlay = none
  · rw [showGlobalLoading_body_none br m s hn, body_nil_of_no_overlay h hn,
      br.overlayNodes_plain m hp]
    simp
  · rw [showGlobalLoading_of_some br m s hn]
    exact hl

theorem plain_step {s : Page} (h : OverlayInv s) (hl : s.body.length ≤ 1) (e : Event)
    (he : e.plain = true) : (step br s e).body.length ≤ 1 := by
  cases e with
  | showLoading m => exact showGlobalLoading_plain_length h hl _ he
  | hideLoading => simpa [step] using hl
  | click o d =>
    simp only [step, importClick]
    split
    · rename_i hv
      simp only [Event.plain, hv, Bool.not_true, Bool.false_or] at he
      simpa [setTimeout, observe] using showGlobalLoading_plain_length h hl _ he
    · exact hl
  | mutations r i => simpa [step, deliver_eq] using hl
  | timer =>
    simp only [step]
    cases hp : popNext s.timers with
    | none => exact hl
    | some p => exact le_trans (runCallback_body_length _ _) hl
  | wait ms =>
    simp only [step]
    cases hp : popNext s.timers <;> exact hl

theorem plain_run : ∀ (evs : List Event) {s : Page}, OverlayInv s → s.body.length ≤ 1 →
    (∀ e ∈ evs, e.plain = true) → (run br s evs).body.length ≤ 1
  | [], _, _, hl, _ => hl
  | e :: evs, _, h, hl, hp =>
    plain_run evs (overlayInv_step h e) (plain_step h hl e (hp e (List.mem_cons_self _ _)))
      (fun x hx => hp x (List.mem_cons_of_mem _ hx))

/-- C1 as stated fails. The message is spliced into the overlay markup as it
is: with the message closing the overlay element and opening another one, a
single call of showGlobalLoading on the initial page attaches two
loading-overlay nodes. -/
theorem overlay_markup_message_two_nodes :
    overlayMarkup "</h4></div></div><div class='loading-overlay'>" =
      overlayMarkupHead ++ "</h4></div></div><div class='loading-overlay'>" ++
        overlayMarkupTail ∧
    tagScanner.overlayNodes (overlayMarkup "</h4></div></div><div class='loading-overlay'>") = 2 ∧
    (showGlobalLoading tagScanner "</h4></div></div><div class='loading-overlay'>"
      Page.init).body.length = 2 ∧
    (run tagScanner Page.init
      [.showLoading (some "</h4></div></div><div class='loading-overlay'>")]).body.length = 2 := by
  refine ⟨rfl, ?_, ?_, ?_⟩ <;> decide

/-- C1, amended. From the initial page, after any sequence of events (calls of
showGlobalLoading and hideGlobalLoading, fade-out completions, and also import
clicks, mutation batches and the passing of time), every loading-overlay node
in the page was built by the one referenced overlay, and there is at most one
such node when every message shown so far is free of markup. Calling
showGlobalLoading when no overlay is referenced finds no node in the page and
attaches the nodes the browser builds from the overlay markup, exactly one
when the message is free of markup; calling it while an overlay is referenced
leaves the whole state unchanged, whatever the message. -/
theorem overlay_nodes_of_referenced_overlay (br : Browser) (evs : List Event)
    (message : String) :
    (∀ n ∈ (run br Page.init evs).body,
      ∃ o, (run br Page.init evs).loadingOverlay = some o ∧ o.id = n) ∧
    ((∀ e ∈ evs, e.plain = true) → (run br Page.init evs).body.length ≤ 1) ∧
    ((run br Page.init evs).loadingOverlay = none →
      (run br Page.init evs).body = [] ∧
      (showGlobalLoading br message (run br Page.init evs)).body =
        List.replicate (br.overlayNodes (overlayMarkup message)) (run br Page.init evs).nextId ∧
      (plainText message = true →
        (showGlobalLoading br message (run br Page.init evs)).body =
          [(run br Page.init evs).nextId]) ∧
      ((showGlobalLoading br message (run br Page.init evs)).loadingOverlay.map
        (fun o => o.id)) = some (run br Page.init evs).nextId) ∧
    ((run br Page.init evs).loadingOverlay ≠ none →
      showGlobalLoading br message (run br Page.init evs) = run br Page.init evs) := by
  have hinv : OverlayInv (run br Page.init evs) := overlayInv_run evs overlayInv_init
  refine ⟨hinv.1, ?_, ?_, ?_⟩
  · intro hp
    exact plain_run evs overlayInv_init (by simp [Page.init]) hp
  · intro hn
    have hnil := body_nil_of_no_overlay hinv hn
    refine ⟨hnil, ?_, ?_, ?_⟩
    · rw [showGlobalLoading_body_none br message _ hn, hnil, List.nil_append]
    · intro hp
      rw [showGlobalLoading_body_none br message _ hn, hnil, br.overlayNodes_plain message hp]
      rfl
    · simp [showGlobalLoading, hn]
  · intro hn
    exact showGlobalLoading_of_some br message _ hn

/-! ## Imports that find no image -/

theorem quietInv_step {k due : Nat} {s : Page} (h : QuietInv k due s) (e : Event)
    (hq : ∀ r i, e = .mutations r i → ¬ (k ∈ s.observers ∧ detects r i = true)) :
    QuietInv k due (step br s e) := by
  obtain ⟨q1, q2, q3, q4, q5⟩ := h
  have hle := step_nextId_le br s e
  refine ⟨lt_of_lt_of_le q1 hle, ?_⟩
  cases e with
  | showLoading m =>
    simp only [step, showGlobalLoading_notifications, showGlobalLoading_timers,
      showGlobalLoading_observers, showGlobalLoading_now]
    exact ⟨q2, q3, q4, q5⟩
  | hideLoading =>
    simp only [step, hideGlobalLoading_notifications, hideGlobalLoading_observers,
      hideGlobalLoading_now, mem_hideGlobalLoading_timers]
    refine ⟨q2, ?_, ?_, ?_⟩
    · rintro t (ht | ⟨o, _, rfl⟩)
      · exact q3 t ht
      · simp
    · rintro t (ht | ⟨o, _, rfl⟩)
      · exact q4 t ht
      · simp
    · rcases q5 with ⟨a, b, c⟩ | ⟨a, b⟩
      · exact Or.inl ⟨a, Or.inl b, c⟩
      · exact Or.inr ⟨a, b⟩
  | click o d =>
    simp only [step]
    by_cases hv : truthy (jsAnd o d) = true
    · obtain ⟨h1, -, h3, h4, h5, h6⟩ := importClick_of_truthy br o d s hv
      have hne : k ≠ importObserver br o d s := by omega
      rw [h1, h3, h4, h5]
      refine ⟨q2, ?_, ?_, ?_⟩
      · intro t ht
        rw [List.mem_append, List.mem_singleton] at ht
        rcases ht with ht | rfl
        · exact q3 t ht
        · simp
      · intro t ht hc
        rw [List.mem_append, List.mem_singleton] at ht
        rcases ht with ht | rfl
        · exact q4 t ht hc
        · simp at hc
          exact absurd hc.symm hne
      · rcases q5 with ⟨a, b, c⟩ | ⟨a, b⟩
        · exact Or.inl ⟨List.mem_append_left _ a, List.mem_append_left _ b, c⟩
        · refine Or.inr ⟨?_, b⟩
          rw [List.mem_append, List.mem_singleton]
          rintro (hx | hx)
          · exact a hx
          · exact hne hx
    · rw [importClick_of_not_truthy br o d s hv]
      exact ⟨q2, q3, q4, q5⟩
  | mutations r i =>
    have hobs : (step br s (.mutations r i)).observers = s.observers := by
      simp [step, deliver_eq]
    have hnot : (step br s (.mutations r i)).notifications = s.notifications := by
      simp [step, deliver_eq]
    have hnow : (step br s (.mutations r i)).now = s.now := by
      simp [step, deliver_eq]
    have htim : ∀ t, t ∈ (step br s (.mutations r i)).timers ↔
        t ∈ s.timers ∨ (detects r i = true ∧ ∃ j ∈ s.observers, t = ⟨s.now + 1000, .importDone j⟩) :=
      fun t => mem_deliver_timers r i s t
    rw [hobs, hnot, hnow]
    refine ⟨q2, ?_, ?_, ?_⟩
    · intro t ht
      rcases (htim t).1 ht with ht | ⟨hd, j, hj, rfl⟩
      · exact q3 t ht
      · intro hc
        simp at hc
        subst hc
        exact hq r i rfl ⟨hj, hd⟩
    · intro t ht hc
      rcases (htim t).1 ht with ht | ⟨hd, j, hj, rfl⟩
      · exact q4 t ht hc
      · simp at hc
    · rcases q5 with ⟨a, b, c⟩ | ⟨a, b⟩
      · exact Or.inl ⟨a, (htim _).2 (Or.inl b), c⟩
      · exact Or.inr ⟨a, b⟩
  | timer =>
    simp only [step]
    cases hp : popNext s.timers with
    | none => exact ⟨q2, q3, q4, q5⟩
    | some p =>
      obtain ⟨t, rest⟩ := p
      obtain ⟨hmem, hrest⟩ := popNext_mem _ _ _ hp
      obtain ⟨hmin, hall⟩ := popNext_spec _ _ _ hp
      simp only
      refine ⟨?_, ?_, ?_, ?_⟩
      · intro n hn
        rw [mem_runCallback_notifications] at hn
        rcases hn with hn | ⟨j, hj, rfl⟩
        · exact q2 n hn
        · intro hc
          simp at hc
          subst hc
          exact q3 t hmem hj
      · intro x hx
        rcases mem_runCallback_timers _ _ _ hx with hx | ⟨n, hx⟩
        · exact q3 x (hrest x hx)
        · rw [hx]
          simp
      · intro x hx hc
        rcases mem_runCallback_timers _ _ _ hx with hx | ⟨n, hx⟩
        · exact q4 x (hrest x hx) hc
        · rw [hx] at hc
          simp at hc
      · rw [mem_runCallback_observers, runCallback_now]
        simp only
        rcases q5 with ⟨a, b, c⟩ | ⟨a, b⟩
        · by_cases hc : t.cb = .safety k
          · refine Or.inr ⟨fun hx => hx.2.2 hc, ?_⟩
            have := q4 t hmem hc
            omega
          · have hT : (⟨due, .safety k⟩ : Timer) ∈ rest := by
              rcases hall _ b with hx | hx
              · rw [← hx] at hc
                exact absurd rfl hc
              · exact hx
            refine Or.inl ⟨⟨a, q3 t hmem, hc⟩, ?_, ?_⟩
            · exact mem_timers_runCallback _ _ _ hT (by simp)
            · have := hmin _ b
              simp only at this
              omega
        · refine Or.inr ⟨fun hx => a hx.1, ?_⟩
          omega
  | wait ms =>
    simp only [step]
    cases hp : popNext s.timers with
    | none =>
      refine ⟨q2, q3, q4, ?_⟩
      rcases q5 with ⟨a, b, c⟩ | ⟨a, b⟩
      · rw [popNext_none _ hp] at b
        cases b
      · refine Or.inr ⟨a, ?_⟩
        simp only
        omega
    | some p =>
      obtain ⟨t, rest⟩ := p
      obtain ⟨hmin, -⟩ := popNext_spec _ _ _ hp
      refine ⟨q2, q3, q4, ?_⟩
      rcases q5 with ⟨a, b, c⟩ | ⟨a, b⟩
      · refine Or.inl ⟨a, b, ?_⟩
        have := hmin _ b
        simp only at this ⊢
        omega
      · refine Or.inr ⟨a, ?_⟩
        simp only
        omega

theorem quietInv_run {k due : Nat} : ∀ (evs : List Event) {s : Page},
    QuietInv k due s → quiet br k s evs = true → QuietInv k due (run br s evs)
  | [], _, h, _ => h
  | e :: evs, s, h, hq => by
    simp only [quiet, Bool.and_eq_true] at hq
    refine quietInv_run evs (quietInv_step h e ?_) hq.2
    intro r i he hc
    subst he
    simp [hc.1, hc.2] at hq

theorem quietInv_importClick {s : Page} (h : FreshInv s) (o d : SelVal)
    (hv : truthy (jsAnd o d) = true) :
    QuietInv (importObserver br o d s) (s.now + 300000) (importClick br o d s) := by
  obtain ⟨ho, ht, hn⟩ := h
  obtain ⟨h1, h2, h3, h4, h5, h6⟩ := importClick_of_truthy br o d s hv
  refine ⟨by omega, ?_, ?_, ?_, Or.inl ⟨?_, ?_, by omega⟩⟩
  · intro n hnm hc
    rw [h5] at hnm
    have := hn n hnm _ hc
    omega
  · intro t htm hc
    rw [h4, List.mem_append, List.mem_singleton] at htm
    rcases htm with htm | rfl
    · have := ht t htm _ (Or.inl hc)
      omega
    · simp at hc
  · intro t htm hc
    rw [h4, List.mem_append, List.mem_singleton] at htm
    rcases htm with htm | rfl
    · have := ht t htm _ (Or.inr hc)
      omega
    · rfl
  · rw [h3]
    simp
  · rw [h4]
    simp

/-- C4. Take any import triggered with both selectors populated, in any
reachable state: it connects a watcher k and starts a safety timer due 300000
ms later. If no batch handed to the watcher k finds an image, then in every
state reached afterwards no success notification stems from this import;
either the watcher is still connected with the timer pending and the clock at
most at the due time, or the watcher is disconnected and the clock has reached
the due time; and when the safety timer is the next callback, running it is
hideGlobalLoading followed by the disconnection of the watcher k. -/
theorem safety_timeout_without_success (br : Browser) (pre evs : List Event)
    (organism dataset : SelVal)
    (s0 s : Page) (k : Nat)
    (hs0 : s0 = run br Page.init pre)
    (hsel : ∃ x y, organism = some x ∧ dataset = some y ∧ x ≠ "" ∧ y ≠ "")
    (hk : k = importObserver br organism dataset s0)
    (hq : quiet br k (importClick br organism dataset s0) evs = true)
    (hs : s = run br (importClick br organism dataset s0) evs) :
    (k ∈ (importClick br organism dataset s0).observers ∧
      (⟨s0.now + 300000, .safety k⟩ : Timer) ∈ (importClick br organism dataset s0).timers) ∧
    (∀ n ∈ s.notifications, n.origin ≠ some k) ∧
    ((k ∈ s.observers ∧ (⟨s0.now + 300000, .safety k⟩ : Timer) ∈ s.timers ∧
        s.now ≤ s0.now + 300000) ∨
      (k ∉ s.observers ∧ s0.now + 300000 ≤ s.now)) ∧
    (∀ rest, popNext s.timers = some (⟨s0.now + 300000, .safety k⟩, rest) →
      step br s .timer =
        disconnect k (hideGlobalLoading { s with now := s0.now + 300000, timers := rest }) ∧
      k ∉ (step br s .timer).observers) := by
  have hv := (truthy_jsAnd organism dataset).2 hsel
  have hfresh : FreshInv s0 := hs0 ▸ freshInv_run pre freshInv_init
  have htime0 : TimeInv s0 := hs0 ▸ timeInv_run pre timeInv_init
  have hq1 : QuietInv k (s0.now + 300000) (importClick br organism dataset s0) :=
    hk ▸ quietInv_importClick hfresh organism dataset hv
  have hqs : QuietInv k (s0.now + 300000) s := hs ▸ quietInv_run evs hq1 hq
  have htime : TimeInv s := hs ▸ timeInv_run evs (timeInv_step htime0 (.click organism dataset))
  obtain ⟨h1, h2, h3, h4, h5, h6⟩ := importClick_of_truthy br organism dataset s0 hv
  refine ⟨⟨?_, ?_⟩, hqs.2.1, hqs.2.2.2.2, ?_⟩
  · rw [h3, hk]
    simp
  · rw [h4, hk]
    simp
  · intro rest hp
    obtain ⟨hmem, -⟩ := popNext_mem _ _ _ hp
    have hnow := htime _ hmem
    simp only at hnow
    have hstep : step br s .timer =
        disconnect k (hideGlobalLoading { s with now := s0.now + 300000, timers := rest }) := by
      simp only [step, hp, runCallback, max_eq_right hnow]
    refine ⟨hstep, ?_⟩
    rw [hstep]
    simp [disconnect]

/-- C4 at a concrete run: an import that sees one batch without image, whose
safety timer fires, and a batch with an image arriving afterwards. -/
theorem safety_timeout_without_success_witness :
    quiet tagScanner 1 (importClick tagScanner (some "Human") (some "GSE1") Page.init)
      [.wait 1000, .mutations [.childList] 0, .wait 400000, .timer,
       .mutations [.childList] 1] = true ∧
    ∀ n ∈ (run tagScanner (importClick tagScanner (some "Human") (some "GSE1") Page.init)
      [.wait 1000, .mutations [.childList] 0, .wait 400000, .timer,
       .mutations [.childList] 1]).notifications, n.origin ≠ some 1 :=
  ⟨by decide,
   (safety_timeout_without_success tagScanner []
      [.wait 1000, .mutations [.childList] 0, .wait 400000, .timer, .mutations [.childList] 1]
      (some "Human") (some "GSE1") Page.init
      (run tagScanner (importClick tagScanner (some "Human") (some "GSE1") Page.init)
        [.wait 1000, .mutations [.childList] 0, .wait 400000, .timer,
         .mutations [.childList] 1])
      1 rfl ⟨"Human", "GSE1", rfl, rfl, by decide, by decide⟩ (by decide) (by decide) rfl).2.1⟩

end MASLD
